import Mathlib

/-!
Verification development for the tool-catalog web backend
(routers auth, tools, admin, ratings_comments and their models/schemas).

The database tables, the cache (an external key-value store with
get/set/delete/pattern-delete), the audit sink (an external append-only
recorder) and the Telegram notifier (external send/verify) are embedded as
explicit state; each route handler is translated into a function from
state and request data to a response (or an HTTP error) and a new state.
An uncaught Python exception leaves the database transaction uncommitted,
so those paths return the unchanged database state.
-/

namespace ToolCatalog

/-- Fuel-driven decimal rendering of a natural number, one character per
digit; the fuel bounds the number of division steps. -/
def natDigitsF : Nat → Nat → List Char
  | 0, _ => []
  | f + 1, n =>
    if n < 10 then [Nat.digitChar n]
    else natDigitsF f (n / 10) ++ [Nat.digitChar (n % 10)]

/-- Decimal rendering of a natural number, one character per digit, as
Python str applied to an int produces inside f-string cache keys. -/
def natDigits (n : Nat) : List Char := natDigitsF (n + 1) n

/-- Decimal rendering of a natural number as a string. -/
def natStr (n : Nat) : String := String.mk (natDigits n)

/-- Numeric value of a decimal digit character. -/
def digitVal (c : Char) : Nat := c.toNat - 48

/-- Value of a decimal digit string, used to invert natDigits. -/
def digitsVal (l : List Char) : Nat := l.foldl (fun a c => 10 * a + digitVal c) 0

/-- Boolean list-prefix test, the semantics of a trailing-star glob as used
by the cache pattern-delete operation. -/
def listPref : List Char → List Char → Bool
  | [], _ => true
  | _ :: _, [] => false
  | a :: as, b :: bs => a == b && listPref as bs

/-- String form of the glob-prefix test. -/
def strHasPref (p s : String) : Bool := listPref p.data s.data

/-- User roles (app.models.user.UserRole). -/
inductive Role
  | user
  | moderator
  | admin
  deriving DecidableEq, BEq

/-- Tool categories (app.models.tool.ToolCategory). -/
inductive ToolCategory
  | development
  | design
  | productivity
  | communication
  | analytics
  | other
  deriving DecidableEq, BEq

/-- Tool approval status (app.models.tool.ToolStatus). -/
inductive ToolStatus
  | pending
  | approved
  | rejected
  deriving DecidableEq, BEq

/-- A row of the users table. Modelled from the spec: the user model file
is not part of the sources; registration creates a plain user with 2FA
disabled and no Telegram chat id, per the login/2FA flow description. -/
structure UserRec where
  id : Nat
  username : String
  email : String
  hashed_password : String
  telegram_id : Option String
  is_2fa_enabled : Bool
  role : Role
  deriving DecidableEq

/-- A row of the tools table (app.models.tool.Tool). -/
structure ToolRec where
  id : Nat
  name : String
  description : String
  category : ToolCategory
  status : ToolStatus
  url : Option String
  created_by : Option Nat
  approved_by : Option Nat
  rejection_reason : Option String
  deriving DecidableEq

/-- A row of the tool_ratings table. Modelled from the spec: the
ToolRating model file is not part of the sources; a rating is an integer
1 to 5 a user assigns to a tool, one row per user and tool. -/
structure RatingRec where
  id : Nat
  tool_id : Nat
  user_id : Nat
  rating : Int
  deriving DecidableEq

/-- A row of the tool_comments table (app.models.tool_comment.ToolComment);
the upvote and downvote counters are stored denormalized on the row. -/
structure CommentRec where
  id : Nat
  tool_id : Nat
  user_id : Nat
  content : String
  upvotes : Int
  downvotes : Int
  deriving DecidableEq

/-- A row of the comment_votes table (app.models.tool_comment.CommentVote). -/
structure VoteRec where
  id : Nat
  comment_id : Nat
  user_id : Nat
  vote_type : String
  deriving DecidableEq

/-- An audit record. Modelled from the spec: the audit sink is an external
append-only recorder of actor, action, entity and timestamp; the timestamp
is a logical clock (the length of the log at append time) and the free-form
details payload is elided. -/
structure AuditRec where
  user_id : Nat
  action : String
  entity_type : String
  entity_id : Nat
  ts : Nat
  deriving DecidableEq

/-- The cached rating statistics payload of get_rating_stats: the average,
the total, and the distribution dict with keys "1" to "5". -/
structure RatingStatsVal where
  average_rating : ℚ
  total_ratings : Nat
  d1 : Nat
  d2 : Nat
  d3 : Nat
  d4 : Nat
  d5 : Nat
  deriving DecidableEq

/-- The cached tools statistics payload of get_tools_stats. -/
structure ToolsStatsVal where
  total : Nat
  pending : Nat
  approved : Nat
  rejected : Nat
  development : Nat
  design : Nat
  productivity : Nat
  communication : Nat
  analytics : Nat
  other : Nat
  deriving DecidableEq

/-- The cached statistics payload of get_admin_stats (admin:stats:overview). -/
structure AdminStatsVal where
  users_total : Nat
  role_user : Nat
  role_moderator : Nat
  role_admin : Nat
  with_2fa : Nat
  tools_total : Nat
  t_pending : Nat
  t_approved : Nat
  t_rejected : Nat
  c_development : Nat
  c_design : Nat
  c_productivity : Nat
  c_communication : Nat
  c_analytics : Nat
  c_other : Nat
  total_actions : Nat
  recent_actions : Nat
  deriving DecidableEq

/-- One serialized comment as cached and returned by get_tool_comments. -/
structure CommentItem where
  id : Nat
  tool_id : Nat
  user_id : Nat
  content : String
  username : String
  upvotes : Int
  downvotes : Int
  deriving DecidableEq

/-- Values held by the external cache: the 2FA code string and the
serialized payloads of the caching read endpoints. -/
inductive CacheVal
  | str (s : String)
  | ratingStats (v : RatingStatsVal)
  | toolsList (l : List ToolRec)
  | toolsStats (v : ToolsStatsVal)
  | adminStats (v : AdminStatsVal)
  | commentsList (l : List CommentItem)
  deriving DecidableEq

/-- Python truthiness of a cached value, deciding the hit test of
read-through lookups and the missing-code test of verify_2fa. -/
def CacheVal.falsy : CacheVal → Bool
  | .str s => s.isEmpty
  | .ratingStats _ => false
  | .toolsList l => l.isEmpty
  | .toolsStats _ => false
  | .adminStats _ => false
  | .commentsList l => l.isEmpty

/-- Python equality between a submitted code string and a cached value, as
in the comparison of verify_2fa; a string never equals a non-string. -/
def CacheVal.eqStr : CacheVal → String → Bool
  | .str s, c => s == c
  | _, _ => false

/-- One cache entry: key, value and the expiry in seconds passed to set.
Modelled from the spec: the cache is an external key-value store with
get, set with fixed expiry, delete and pattern-delete. -/
structure CEntry where
  key : String
  val : CacheVal
  expire : Nat
  deriving DecidableEq

/-- Cache lookup. -/
def cacheGet (c : List CEntry) (k : String) : Option CacheVal :=
  (c.find? (fun e => e.key == k)).map (fun e => e.val)

/-- Cache lookup returning the whole entry, exposing the stored expiry. -/
def cacheFind (c : List CEntry) (k : String) : Option CEntry :=
  c.find? (fun e => e.key == k)

/-- Cache set: the new entry replaces any entry with the same key. -/
def cacheSet (c : List CEntry) (k : String) (v : CacheVal) (e : Nat) : List CEntry :=
  ⟨k, v, e⟩ :: c.filter (fun en => en.key != k)

/-- Cache delete of a single key. -/
def cacheDelete (c : List CEntry) (k : String) : List CEntry :=
  c.filter (fun en => en.key != k)

/-- Cache pattern-delete of every key matching the glob p followed by a
star, that is every key with string prefix p. -/
def clearPat (c : List CEntry) (p : String) : List CEntry :=
  c.filter (fun en => !strHasPref p en.key)

/-- The cache key of the pending 2FA code of a user (auth.py line 78/121). -/
def twoFaKey (uid : Nat) : String := "2fa:" ++ natStr uid

/-- The cache key of the rating statistics of a tool
(ratings_comments.py lines 65, 105, 178). -/
def ratingStatsKey (tid : Nat) : String := "rating:stats:" ++ natStr tid

/-- Rendering of an optional tool category inside the tools list cache key. -/
def renderOptCat : Option ToolCategory → String
  | none => "None"
  | some .development => "development"
  | some .design => "design"
  | some .productivity => "productivity"
  | some .communication => "communication"
  | some .analytics => "analytics"
  | some .other => "other"

/-- Rendering of an optional tool status inside the tools list cache key. -/
def renderOptStatus : Option ToolStatus → String
  | none => "None"
  | some .pending => "pending"
  | some .approved => "approved"
  | some .rejected => "rejected"

/-- The cache key of a filtered tools listing (app tools.py line 64). -/
def toolsListKey (cat : Option ToolCategory) (st : Option ToolStatus)
    (skip limit : Nat) : String :=
  "tools:list:" ++ renderOptCat cat ++ ":" ++ renderOptStatus st ++ ":"
    ++ natStr skip ++ ":" ++ natStr limit

/-- The cache key of the tools statistics (tools.py get_tools_stats). -/
def toolsStatsKey : String := "tools:stats"

/-- The cache key of the admin statistics overview (admin.py line 217). -/
def adminStatsKey : String := "admin:stats:overview"

/-- The cache key of one page of comments of a tool
(ratings_comments.py line 247). -/
def commentsKey (tid skip limit : Nat) : String :=
  "comments:" ++ natStr tid ++ ":" ++ natStr skip ++ ":" ++ natStr limit

/-- The pattern prefix used to clear the comment pages of a tool
(ratings_comments.py clear_pattern calls). -/
def commentsPat (tid : Nat) : String := "comments:" ++ natStr tid ++ ":"

/-- A request failure: an HTTPException with status and detail, an uncaught
Python AttributeError naming the missing attribute, or an uncaught KeyError
from the rating distribution dict. -/
inductive HErr
  | http (status : Nat) (detail : String)
  | attrError (attr : String)
  | keyError
  deriving DecidableEq

/-- The payload of an issued access token together with the requires_2fa
flag of the Token response. Modelled from the spec: JWT issuance is an
excluded external; the model keeps the claims that create_access_token is
given (subject, the 2fa_pending marker, the expiry override in minutes). -/
structure TokenV where
  sub : String
  tfa_pending : Bool
  expires_min : Option Nat
  requires_2fa : Bool
  deriving DecidableEq

/-- Successful handler responses; cachedVal is the raw value returned on a
cache hit of a read-through endpoint. -/
inductive Resp
  | user (u : UserRec)
  | token (t : TokenV)
  | msg (m : String)
  | tool (t : ToolRec)
  | toolsOut (l : List ToolRec)
  | toolsStatsOut (v : ToolsStatsVal)
  | adminStatsOut (v : AdminStatsVal)
  | stats (v : RatingStatsVal)
  | ratingOut (r : RatingRec)
  | myRating (r : Option Int)
  | commentOut (c : CommentRec)
  | commentsOut (l : List CommentItem)
  | cachedVal (v : CacheVal)
  | done
  deriving DecidableEq

/-- The whole system state: the relational tables with their id counters,
the audit log, the cache, and the log of notifier dispatches (chat id and
code of every send_code call). -/
structure St where
  users : List UserRec
  tools : List ToolRec
  ratings : List RatingRec
  comments : List CommentRec
  votes : List VoteRec
  audit : List AuditRec
  cache : List CEntry
  sent : List (String × String)
  next_user_id : Nat
  next_tool_id : Nat
  next_rating_id : Nat
  next_comment_id : Nat
  next_vote_id : Nat
  deriving DecidableEq

/-- Append one audit record (audit_service.log_action); the timestamp is
the logical clock, the length of the log at append time. -/
def logAction (s : St) (uid : Nat) (action entity : String) (eid : Nat) : St :=
  { s with audit := s.audit ++ [⟨uid, action, entity, eid, s.audit.length⟩] }

/-- Database lookup of a user by primary key, as get_current_user resolves
the authenticated user. -/
def findUser (s : St) (uid : Nat) : Option UserRec :=
  s.users.find? (fun u => u.id == uid)

/-- Database lookup of a tool by primary key. -/
def findTool (s : St) (tid : Nat) : Option ToolRec :=
  s.tools.find? (fun t => t.id == tid)

/-- Password hashing. Modelled from the spec: hashing is an excluded
external; an injective tagging stands in for the hash. -/
def hashPassword (p : String) : String := "hashed:" ++ p

/-- Password verification against a stored hash. -/
def verifyPassword (p h : String) : Bool := hashPassword p == h

/-- Python truthiness of an optional string column, as the login check
user.telegram_id evaluates it. -/
def truthyOptStr : Option String → Bool
  | none => false
  | some t => !t.isEmpty

/-- Update the user row with the given id in place, as committing a
mutation of a fetched ORM object does. -/
def updUser (s : St) (uid : Nat) (f : UserRec → UserRec) : St :=
  { s with users := s.users.map (fun u => if u.id == uid then f u else u) }

/-- Update the tool row with the given id in place. -/
def updTool (s : St) (tid : Nat) (f : ToolRec → ToolRec) : St :=
  { s with tools := s.tools.map (fun t => if t.id == tid then f t else t) }

/-- Update the comment row with the given id in place. -/
def updComment (s : St) (cid : Nat) (f : CommentRec → CommentRec) : St :=
  { s with comments := s.comments.map (fun c => if c.id == cid then f c else c) }

/-- Attribute access on a validated request object, represented by its
field assignments; a missing attribute is a Python AttributeError. -/
def pyGetAttr (attrs : List (String × String)) (name : String) : Option String :=
  (attrs.find? (fun kv => kv.1 == name)).map (fun kv => kv.2)

/-- The read-through hit test: a cached value is returned only when present
and truthy (an empty cached list falls through to the database). -/
def cacheHit (c : List CEntry) (k : String) : Option CacheVal :=
  match cacheGet c k with
  | some v => if v.falsy then none else some v
  | none => none

/-- Handler register of auth.py (lines 17-57). -/
def register (s : St) (username email pw : String) : Except HErr Resp × St :=
  match s.users.find? (fun u => u.username == username) with
  | some _ => (.error (.http 400 "Username already registered"), s)
  | none =>
    match s.users.find? (fun u => u.email == email) with
    | some _ => (.error (.http 400 "Email already registered"), s)
    | none =>
      let nu : UserRec :=
        ⟨s.next_user_id, username, email, hashPassword pw, none, false, .user⟩
      let s1 := { s with users := s.users ++ [nu], next_user_id := s.next_user_id + 1 }
      (.ok (.user nu), logAction s1 nu.id "register" "user" nu.id)

/-- Handler login of auth.py (lines 60-109). gen is the code produced by
telegram_service.generate_code and sendOk the outcome of the external
send_code call; the dispatch is recorded in sent before the outcome check,
and the cache write precedes the send, so a failed send leaves the code
cached. -/
def login (s : St) (username pw gen : String) (sendOk : Bool) : Except HErr Resp × St :=
  match s.users.find? (fun u => u.username == username) with
  | none => (.error (.http 401 "Incorrect username or password"), s)
  | some u =>
    if !verifyPassword pw u.hashed_password then
      (.error (.http 401 "Incorrect username or password"), s)
    else if u.is_2fa_enabled && truthyOptStr u.telegram_id then
      let s1 := { s with cache := cacheSet s.cache (twoFaKey u.id) (.str gen) 300 }
      let s2 := { s1 with sent := s1.sent ++ [(u.telegram_id.getD "", gen)] }
      if !sendOk then (.error (.http 500 "Failed to send 2FA code"), s2)
      else (.ok (.token ⟨u.username, true, some 5, true⟩), s2)
    else
      (.ok (.token ⟨u.username, false, none, false⟩), logAction s u.id "login" "user" u.id)

/-- Handler verify_2fa of auth.py (lines 112-152); the missing-user branch
is the modelled get_current_user dependency. -/
def verify_2fa (s : St) (uid : Nat) (code : String) : Except HErr Resp × St :=
  match findUser s uid with
  | none => (.error (.http 401 "Could not validate credentials"), s)
  | some u =>
    match cacheGet s.cache (twoFaKey u.id) with
    | none => (.error (.http 400 "2FA code expired or not found"), s)
    | some stored =>
      if stored.falsy then (.error (.http 400 "2FA code expired or not found"), s)
      else if !stored.eqStr code then (.error (.http 401 "Invalid 2FA code"), s)
      else
        let s1 := { s with cache := cacheDelete s.cache (twoFaKey u.id) }
        (.ok (.token ⟨u.username, false, none, false⟩),
          logAction s1 u.id "2fa_verified" "user" u.id)

/-- Handler setup_telegram of auth.py (lines 155-188). verifyOk is the
outcome of the external verify_chat_id call; delivery verification of an
empty chat id cannot succeed (modelled from the spec: the notifier is an
external send/verify service over Telegram chat ids). -/
def setup_telegram (s : St) (uid : Nat) (chatId : String) (verifyOk : Bool) :
    Except HErr Resp × St :=
  match findUser s uid with
  | none => (.error (.http 401 "Could not validate credentials"), s)
  | some u =>
    if !(verifyOk && !chatId.isEmpty) then
      (.error (.http 400 "Invalid Telegram chat ID"), s)
    else
      let u' := { u with telegram_id := some chatId, is_2fa_enabled := true }
      let s1 := updUser s u.id (fun x => { x with telegram_id := some chatId, is_2fa_enabled := true })
      (.ok (.user u'), logAction s1 u.id "setup_2fa" "user" u.id)

/-- Handler disable_2fa of auth.py (lines 191-212). -/
def disable_2fa (s : St) (uid : Nat) : Except HErr Resp × St :=
  match findUser s uid with
  | none => (.error (.http 401 "Could not validate credentials"), s)
  | some u =>
    let u' := { u with is_2fa_enabled := false }
    let s1 := updUser s u.id (fun x => { x with is_2fa_enabled := false })
    (.ok (.user u'), logAction s1 u.id "disable_2fa" "user" u.id)

/-- Handler change_password of auth.py (lines 220-247); a missing or empty
field of the password_data dict is falsy. No audit record is appended. -/
def change_password (s : St) (uid : Nat) (current new : String) : Except HErr Resp × St :=
  match findUser s uid with
  | none => (.error (.http 401 "Could not validate credentials"), s)
  | some u =>
    if current.isEmpty || new.isEmpty then
      (.error (.http 400 "Current password and new password are required"), s)
    else if !verifyPassword current u.hashed_password then
      (.error (.http 400 "Current password is incorrect"), s)
    else
      (.ok (.msg "Password changed successfully"),
        updUser s u.id (fun x => { x with hashed_password := hashPassword new }))

/-- Handler create_tool of tools.py (app lines 15-50; backend lines 20-47
is the identical creation logic): the new row always gets status pending
regardless of the request payload, which carries no status field. -/
def create_tool (s : St) (uid : Nat) (name description : String)
    (category : ToolCategory) (url : Option String) : Except HErr Resp × St :=
  match findUser s uid with
  | none => (.error (.http 401 "Could not validate credentials"), s)
  | some u =>
    let nt : ToolRec :=
      ⟨s.next_tool_id, name, description, category, .pending, url, some u.id, none, none⟩
    let s1 := { s with tools := s.tools ++ [nt], next_tool_id := s.next_tool_id + 1 }
    let s2 := { s1 with cache := clearPat s1.cache "tools:" }
    (.ok (.tool nt), logAction s2 u.id "create" "tool" nt.id)

/-- The filtered tools query of get_tools (app tools.py lines 70-79). -/
def toolsQuery (s : St) (cat : Option ToolCategory) (st : Option ToolStatus)
    (skip limit : Nat) : List ToolRec :=
  ((s.tools.filter (fun t =>
      (match cat with | none => true | some c => t.category == c)
      && (match st with | none => true | some x => t.status == x))).drop skip).take limit

/-- Handler get_tools of app tools.py (lines 53-84): read-through on the
filter-parameter key, populating with a 300 second expiry on a miss. -/
def get_tools (s : St) (cat : Option ToolCategory) (st : Option ToolStatus)
    (skip limit : Nat) : Except HErr Resp × St :=
  let key := toolsListKey cat st skip limit
  match cacheHit s.cache key with
  | some v => (.ok (.cachedVal v), s)
  | none =>
    let ts := toolsQuery s cat st skip limit
    (.ok (.toolsOut ts), { s with cache := cacheSet s.cache key (.toolsList ts) 300 })

/-- The statistics computed by get_tools_stats on a cache miss. -/
def toolsStatsOf (s : St) : ToolsStatsVal :=
  ⟨s.tools.length,
   (s.tools.filter (fun t => t.status == .pending)).length,
   (s.tools.filter (fun t => t.status == .approved)).length,
   (s.tools.filter (fun t => t.status == .rejected)).length,
   (s.tools.filter (fun t => t.category == .development)).length,
   (s.tools.filter (fun t => t.category == .design)).length,
   (s.tools.filter (fun t => t.category == .productivity)).length,
   (s.tools.filter (fun t => t.category == .communication)).length,
   (s.tools.filter (fun t => t.category == .analytics)).length,
   (s.tools.filter (fun t => t.category == .other)).length⟩

/-- Handler get_tools_stats of tools.py (app lines 87-117, backend lines
75-95): read-through on the fixed key tools:stats. -/
def get_tools_stats (s : St) : Except HErr Resp × St :=
  match cacheHit s.cache toolsStatsKey with
  | some v => (.ok (.cachedVal v), s)
  | none =>
    let v := toolsStatsOf s
    (.ok (.toolsStatsOut v),
      { s with cache := cacheSet s.cache toolsStatsKey (.toolsStats v) 300 })

/-- Handler get_tool of app tools.py (lines 120-131). -/
def get_tool (s : St) (tid : Nat) : Except HErr Resp × St :=
  match findTool s tid with
  | none => (.error (.http 404 "Tool not found"), s)
  | some t => (.ok (.tool t), s)

/-- Handler update_tool of tools.py (app lines 134-179): only provided
fields are applied (exclude_unset); the url field may be set to null. -/
def update_tool (s : St) (uid tid : Nat) (name description : Option String)
    (category : Option ToolCategory) (url : Option (Option String)) :
    Except HErr Resp × St :=
  match findUser s uid with
  | none => (.error (.http 401 "Could not validate credentials"), s)
  | some u =>
    match findTool s tid with
    | none => (.error (.http 404 "Tool not found"), s)
    | some t =>
      if !(t.created_by == some u.id) && !(u.role == .admin) then
        (.error (.http 403 "Not authorized to update this tool"), s)
      else
        let t' : ToolRec :=
          { t with name := name.getD t.name,
                   description := description.getD t.description,
                   category := category.getD t.category,
                   url := match url with | none => t.url | some v => v }
        let s1 := updTool s tid (fun _ => t')
        let s2 := { s1 with cache := clearPat s1.cache "tools:" }
        (.ok (.tool t'), logAction s2 u.id "update" "tool" t.id)

/-- Handler delete_tool of tools.py (app lines 182-221): the audit record
is written before the row is deleted; the delete cascades to the ratings,
comments and comment votes of the tool (cascade all, delete-orphan on the
Tool relationships and on ToolComment.votes). -/
def delete_tool (s : St) (uid tid : Nat) : Except HErr Resp × St :=
  match findUser s uid with
  | none => (.error (.http 401 "Could not validate credentials"), s)
  | some u =>
    match findTool s tid with
    | none => (.error (.http 404 "Tool not found"), s)
    | some t =>
      if !(t.created_by == some u.id) && !(u.role == .admin) then
        (.error (.http 403 "Not authorized to delete this tool"), s)
      else
        let s1 := logAction s u.id "delete" "tool" t.id
        let s2 := { s1 with
          tools := s1.tools.filter (fun x => x.id != t.id),
          ratings := s1.ratings.filter (fun r => r.tool_id != t.id),
          comments := s1.comments.filter (fun c => c.tool_id != t.id),
          votes := s1.votes.filter (fun v =>
            !(s.comments.any (fun c => c.id == v.comment_id && c.tool_id == t.id))) }
        (.ok .done, { s2 with cache := clearPat s2.cache "tools:" })

/-- Handler approve_tool of admin.py (lines 65-113); the gate is the
require_moderator dependency (modelled from the spec: role-gated admin
endpoints for moderator or admin). -/
def approve_tool (s : St) (uid tid : Nat) (approved : Bool) (reason : Option String) :
    Except HErr Resp × St :=
  match findUser s uid with
  | none => (.error (.http 401 "Could not validate credentials"), s)
  | some u =>
    if !(u.role == .moderator || u.role == .admin) then
      (.error (.http 403 "Moderator access required"), s)
    else
      match findTool s tid with
      | none => (.error (.http 404 "Tool not found"), s)
      | some t =>
        let t' : ToolRec :=
          if approved then
            { t with status := .approved, rejection_reason := none, approved_by := some u.id }
          else
            { t with status := .rejected, rejection_reason := reason, approved_by := some u.id }
        let act := if approved then "approve" else "reject"
        let s1 := updTool s tid (fun _ => t')
        let s2 := { s1 with cache := clearPat s1.cache "tools:" }
        (.ok (.tool t'), logAction s2 u.id act "tool" t.id)

/-- Handler update_user_role of admin.py (lines 136-178); the gate is the
require_admin dependency. No cache key is invalidated. -/
def update_user_role (s : St) (uid target_id : Nat) (new_role : Role) :
    Except HErr Resp × St :=
  match findUser s uid with
  | none => (.error (.http 401 "Could not validate credentials"), s)
  | some cu =>
    if !(cu.role == .admin) then (.error (.http 403 "Admin access required"), s)
    else
      match s.users.find? (fun x => x.id == target_id) with
      | none => (.error (.http 404 "User not found"), s)
      | some target =>
        if target.id == cu.id then
          (.error (.http 400 "Cannot change your own role"), s)
        else
          let target' := { target with role := new_role }
          let s1 := updUser s target_id (fun x => { x with role := new_role })
          (.ok (.user target'), logAction s1 cu.id "change_role" "user" target.id)

/-- The statistics computed by get_admin_stats on a cache miss. -/
def adminStatsOf (s : St) : AdminStatsVal :=
  ⟨s.users.length,
   (s.users.filter (fun u => u.role == .user)).length,
   (s.users.filter (fun u => u.role == .moderator)).length,
   (s.users.filter (fun u => u.role == .admin)).length,
   (s.users.filter (fun u => u.is_2fa_enabled)).length,
   s.tools.length,
   (s.tools.filter (fun t => t.status == .pending)).length,
   (s.tools.filter (fun t => t.status == .approved)).length,
   (s.tools.filter (fun t => t.status == .rejected)).length,
   (s.tools.filter (fun t => t.category == .development)).length,
   (s.tools.filter (fun t => t.category == .design)).length,
   (s.tools.filter (fun t => t.category == .productivity)).length,
   (s.tools.filter (fun t => t.category == .communication)).length,
   (s.tools.filter (fun t => t.category == .analytics)).length,
   (s.tools.filter (fun t => t.category == .other)).length,
   s.audit.length,
   (s.audit.reverse.take 10).length⟩

/-- Handler get_admin_stats of admin.py (lines 209-257): read-through on
the fixed key admin:stats:overview with a 300 second expiry. -/
def get_admin_stats (s : St) (uid : Nat) : Except HErr Resp × St :=
  match findUser s uid with
  | none => (.error (.http 401 "Could not validate credentials"), s)
  | some u =>
    if !(u.role == .moderator || u.role == .admin) then
      (.error (.http 403 "Moderator access required"), s)
    else
      match cacheHit s.cache adminStatsKey with
      | some v => (.ok (.cachedVal v), s)
      | none =>
        let v := adminStatsOf s
        (.ok (.adminStatsOut v),
          { s with cache := cacheSet s.cache adminStatsKey (.adminStats v) 300 })

/-- Round half to even of a rational, the semantics of the Python builtin
round on an exactly representable value. -/
def roundHE (q : ℚ) : ℤ :=
  if q - ⌊q⌋ = 1 / 2 then (if ⌊q⌋ % 2 = 0 then ⌊q⌋ else ⌊q⌋ + 1) else round q

/-- Python round(x, 2). The float arithmetic of the source is modelled as
exact rational arithmetic. -/
def pyRound2 (q : ℚ) : ℚ := (roundHE (q * 100) : ℚ) / 100

/-- The rating distribution counters, the dict with keys "1" to "5". -/
structure DistVal where
  d1 : Nat
  d2 : Nat
  d3 : Nat
  d4 : Nat
  d5 : Nat
  deriving DecidableEq

/-- One step of the distribution loop of get_rating_stats: incrementing the
dict entry of the rating value, a KeyError (none) outside 1 to 5. -/
def distAdd (d : DistVal) (v : Int) : Option DistVal :=
  if v = 1 then some { d with d1 := d.d1 + 1 }
  else if v = 2 then some { d with d2 := d.d2 + 1 }
  else if v = 3 then some { d with d3 := d.d3 + 1 }
  else if v = 4 then some { d with d4 := d.d4 + 1 }
  else if v = 5 then some { d with d5 := d.d5 + 1 }
  else none

/-- The distribution loop over the rating rows. -/
def buildDist (rows : List RatingRec) : Option DistVal :=
  rows.foldlM (fun d r => distAdd d r.rating) ⟨0, 0, 0, 0, 0⟩

/-- The sum of the rating values of the rows, as a rational. -/
def sumRatings (rows : List RatingRec) : ℚ :=
  rows.foldl (fun a r => a + (r.rating : ℚ)) 0

/-- The statistics payload computed by get_rating_stats from the rating
rows of a tool (ratings_comments.py lines 110-131); none is the uncaught
KeyError of a row outside 1 to 5. -/
def statsPayload (rows : List RatingRec) : Option RatingStatsVal :=
  if rows.isEmpty then some ⟨0, 0, 0, 0, 0, 0, 0⟩
  else
    match buildDist rows with
    | none => none
    | some d =>
      some ⟨pyRound2 (sumRatings rows / (rows.length : ℚ)), rows.length,
            d.d1, d.d2, d.d3, d.d4, d.d5⟩

/-- The rating rows of a tool. -/
def ratingRowsOf (s : St) (tid : Nat) : List RatingRec :=
  s.ratings.filter (fun r => r.tool_id == tid)

/-- Handler rate_tool of ratings_comments.py (lines 25-78); the leading
range check is the RatingCreate field validation (ge 1, le 5). -/
def rate_tool (s : St) (uid tid : Nat) (rating : Int) : Except HErr Resp × St :=
  if rating < 1 ∨ 5 < rating then
    (.error (.http 422 "Input should be between 1 and 5"), s)
  else
    match findUser s uid with
    | none => (.error (.http 401 "Could not validate credentials"), s)
    | some u =>
      match findTool s tid with
      | none => (.error (.http 404 "Tool not found"), s)
      | some _ =>
        let fin := fun (s1 : St) (act : String) (r : RatingRec) =>
          let c1 := clearPat (cacheDelete s1.cache (ratingStatsKey tid)) "tools:"
          let s2 := { s1 with cache := c1 }
          (Except.ok (Resp.ratingOut r), logAction s2 u.id act "tool_rating" r.id)
        match s.ratings.find? (fun r => r.tool_id == tid && r.user_id == u.id) with
        | some ex =>
          let ex' := { ex with rating := rating }
          fin { s with ratings := s.ratings.map (fun r => if r.id == ex.id then ex' else r) }
            "update_rating" ex'
        | none =>
          let nr : RatingRec := ⟨s.next_rating_id, tid, u.id, rating⟩
          fin { s with ratings := s.ratings ++ [nr],
                       next_rating_id := s.next_rating_id + 1 }
            "create_rating" nr

/-- Handler get_my_rating of ratings_comments.py (lines 81-97). -/
def get_my_rating (s : St) (uid tid : Nat) : Except HErr Resp × St :=
  match findUser s uid with
  | none => (.error (.http 401 "Could not validate credentials"), s)
  | some u =>
    match s.ratings.find? (fun r => r.tool_id == tid && r.user_id == u.id) with
    | some r => (.ok (.myRating (some r.rating)), s)
    | none => (.ok (.myRating none), s)

/-- Handler get_rating_stats of ratings_comments.py (lines 100-136):
read-through on the per-tool key, 300 second expiry on a miss; there is no
tool existence check and the endpoint needs no authentication. -/
def get_rating_stats (s : St) (tid : Nat) : Except HErr Resp × St :=
  match cacheHit s.cache (ratingStatsKey tid) with
  | some v => (.ok (.cachedVal v), s)
  | none =>
    match statsPayload (ratingRowsOf s tid) with
    | none => (.error .keyError, s)
    | some st =>
      (.ok (.stats st),
        { s with cache := cacheSet s.cache (ratingStatsKey tid) (.ratingStats st) 300 })

/-- Handler delete_rating of ratings_comments.py (lines 158-191). -/
def delete_rating (s : St) (uid tid : Nat) : Except HErr Resp × St :=
  match findUser s uid with
  | none => (.error (.http 401 "Could not validate credentials"), s)
  | some u =>
    match s.ratings.find? (fun r => r.tool_id == tid && r.user_id == u.id) with
    | none => (.error (.http 404 "Rating not found"), s)
    | some r =>
      let s1 := { s with ratings := s.ratings.filter (fun x => x.id != r.id) }
      let c1 := clearPat (cacheDelete s1.cache (ratingStatsKey tid)) "tools:"
      let s2 := { s1 with cache := c1 }
      (.ok .done, logAction s2 u.id "delete_rating" "tool_rating" r.id)

/-- Handler create_comment of ratings_comments.py (lines 196-234). The
validated request object of schema CommentCreate carries the single field
content, but the handler reads comment_data.comment, an AttributeError. -/
def create_comment (s : St) (uid tid : Nat) (attrs : List (String × String)) :
    Except HErr Resp × St :=
  match findUser s uid with
  | none => (.error (.http 401 "Could not validate credentials"), s)
  | some u =>
    match findTool s tid with
    | none => (.error (.http 404 "Tool not found"), s)
    | some _ =>
      match pyGetAttr attrs "comment" with
      | none => (.error (.attrError "comment"), s)
      | some content =>
        let nc : CommentRec := ⟨s.next_comment_id, tid, u.id, content, 0, 0⟩
        let s1 := { s with comments := s.comments ++ [nc],
                           next_comment_id := s.next_comment_id + 1 }
        let s2 := { s1 with cache := clearPat s1.cache (commentsPat tid) }
        (.ok (.commentOut nc), logAction s2 u.id "create_comment" "tool_comment" nc.id)

/-- One serialized comment of get_tool_comments, the username resolved
through the user relationship. -/
def commentItemOf (s : St) (c : CommentRec) : CommentItem :=
  ⟨c.id, c.tool_id, c.user_id, c.content,
   ((findUser s c.user_id).map (fun u => u.username)).getD "",
   c.upvotes, c.downvotes⟩

/-- Handler get_tool_comments of ratings_comments.py (lines 237-269):
read-through on the per-page key with a 300 second expiry; the descending
creation-time ordering of the page is elided. -/
def get_tool_comments (s : St) (tid skip limit : Nat) : Except HErr Resp × St :=
  let key := commentsKey tid skip limit
  match cacheHit s.cache key with
  | some v => (.ok (.cachedVal v), s)
  | none =>
    let items := (((s.comments.filter (fun c => c.tool_id == tid)).drop skip).take limit).map
      (commentItemOf s)
    (.ok (.commentsOut items),
      { s with cache := cacheSet s.cache key (.commentsList items) 300 })

/-- Handler update_comment of ratings_comments.py (lines 272-312). The
CommentUpdate schema carries the field content while the handler reads
comment_data.comment, an AttributeError. -/
def update_comment (s : St) (uid tid cid : Nat) (attrs : List (String × String)) :
    Except HErr Resp × St :=
  match findUser s uid with
  | none => (.error (.http 401 "Could not validate credentials"), s)
  | some u =>
    match s.comments.find? (fun c => c.id == cid && c.tool_id == tid) with
    | none => (.error (.http 404 "Comment not found"), s)
    | some c =>
      if !(c.user_id == u.id) then
        (.error (.http 403 "Not authorized to edit this comment"), s)
      else
        match pyGetAttr attrs "comment" with
        | none => (.error (.attrError "comment"), s)
        | some content =>
          let c' := { c with content := content }
          let s1 := updComment s c.id (fun _ => c')
          let s2 := { s1 with cache := clearPat s1.cache (commentsPat tid) }
          (.ok (.commentOut c'), logAction s2 u.id "update_comment" "tool_comment" c.id)

/-- Handler delete_comment of ratings_comments.py (lines 315-353); the
delete cascades to the comment votes. -/
def delete_comment (s : St) (uid tid cid : Nat) : Except HErr Resp × St :=
  match findUser s uid with
  | none => (.error (.http 401 "Could not validate credentials"), s)
  | some u =>
    match s.comments.find? (fun c => c.id == cid && c.tool_id == tid) with
    | none => (.error (.http 404 "Comment not found"), s)
    | some c =>
      if !(c.user_id == u.id) && !(u.role == .moderator || u.role == .admin) then
        (.error (.http 403 "Not authorized to delete this comment"), s)
      else
        let s1 := { s with
          comments := s.comments.filter (fun x => x.id != c.id),
          votes := s.votes.filter (fun v => v.comment_id != c.id) }
        let s2 := { s1 with cache := clearPat s1.cache (commentsPat tid) }
        (.ok .done, logAction s2 u.id "delete_comment" "tool_comment" c.id)

/-- Handler vote_on_comment of ratings_comments.py (lines 358-412). The
CommentVoteCreate schema carries the single field vote, but the handler
reads vote_data.vote_type in both branches: the AttributeError is raised
before any commit, so the in-memory counter decrement of the existing-vote
branch is rolled back and the attribute access is hoisted here. No audit
record is appended on the successful paths. -/
def vote_on_comment (s : St) (uid tid cid : Nat) (attrs : List (String × String)) :
    Except HErr Resp × St :=
  match findUser s uid with
  | none => (.error (.http 401 "Could not validate credentials"), s)
  | some u =>
    match s.comments.find? (fun c => c.id == cid && c.tool_id == tid) with
    | none => (.error (.http 404 "Comment not found"), s)
    | some c =>
      match pyGetAttr attrs "vote_type" with
      | none => (.error (.attrError "vote_type"), s)
      | some vt =>
        match s.votes.find? (fun v => v.comment_id == cid && v.user_id == u.id) with
        | some ex =>
          let c1 : CommentRec := if ex.vote_type == "upvote"
            then { c with upvotes := c.upvotes - 1 }
            else { c with downvotes := c.downvotes - 1 }
          let c2 : CommentRec := if vt == "upvote"
            then { c1 with upvotes := c1.upvotes + 1 }
            else { c1 with downvotes := c1.downvotes + 1 }
          let ex' : VoteRec := { ex with vote_type := vt }
          let cm := s.comments.map (fun x => if x.id == c.id then c2 else x)
          let vs := s.votes.map (fun v => if v.id == ex.id then ex' else v)
          let s1 := { s with comments := cm, votes := vs }
          let s2 := { s1 with cache := clearPat s1.cache (commentsPat tid) }
          (.ok (.msg ("Comment " ++ vt ++ "d successfully")), s2)
        | none =>
          let nv : VoteRec := ⟨s.next_vote_id, cid, u.id, vt⟩
          let c2 : CommentRec := if vt == "upvote"
            then { c with upvotes := c.upvotes + 1 }
            else { c with downvotes := c.downvotes + 1 }
          let cm := s.comments.map (fun x => if x.id == c.id then c2 else x)
          let s1 := { s with
            votes := s.votes ++ [nv],
            next_vote_id := s.next_vote_id + 1,
            comments := cm }
          let s2 := { s1 with cache := clearPat s1.cache (commentsPat tid) }
          (.ok (.msg ("Comment " ++ vt ++ "d successfully")), s2)

/-- Handler remove_vote of ratings_comments.py (lines 415-446); the comment
is refetched by id alone and its counter decremented when found. No audit
record is appended. -/
def remove_vote (s : St) (uid tid cid : Nat) : Except HErr Resp × St :=
  match findUser s uid with
  | none => (.error (.http 401 "Could not validate credentials"), s)
  | some u =>
    match s.votes.find? (fun v => v.comment_id == cid && v.user_id == u.id) with
    | none => (.error (.http 404 "Vote not found"), s)
    | some v =>
      let s1 :=
        match s.comments.find? (fun c => c.id == cid) with
        | some c =>
          let c' := if v.vote_type == "upvote"
            then { c with upvotes := c.upvotes - 1 }
            else { c with downvotes := c.downvotes - 1 }
          updComment s c.id (fun _ => c')
        | none => s
      let s2 := { s1 with votes := s1.votes.filter (fun x => x.id != v.id) }
      (.ok .done, { s2 with cache := clearPat s2.cache (commentsPat tid) })

/-- One request to the system, with the environment choices it depends on
(the generated 2FA code, the notifier outcomes), plus the expiry of one
cache entry as an environment step. The comment-body and vote requests
carry the field of their validated schema (CommentCreate and CommentUpdate
hold content, CommentVoteCreate holds vote). -/
inductive Op
  | register (username email pw : String)
  | login (username pw gen : String) (sendOk : Bool)
  | verify_2fa (uid : Nat) (code : String)
  | setup_telegram (uid : Nat) (chatId : String) (verifyOk : Bool)
  | disable_2fa (uid : Nat)
  | change_password (uid : Nat) (current new : String)
  | create_tool (uid : Nat) (name description : String) (category : ToolCategory)
      (url : Option String)
  | get_tools (cat : Option ToolCategory) (st : Option ToolStatus) (skip limit : Nat)
  | get_tools_stats
  | get_tool (tid : Nat)
  | update_tool (uid tid : Nat) (name description : Option String)
      (category : Option ToolCategory) (url : Option (Option String))
  | delete_tool (uid tid : Nat)
  | approve_tool (uid tid : Nat) (approved : Bool) (reason : Option String)
  | update_user_role (uid target_id : Nat) (new_role : Role)
  | get_admin_stats (uid : Nat)
  | rate_tool (uid tid : Nat) (rating : Int)
  | get_my_rating (uid tid : Nat)
  | get_rating_stats (tid : Nat)
  | delete_rating (uid tid : Nat)
  | create_comment (uid tid : Nat) (content : String)
  | get_tool_comments (tid skip limit : Nat)
  | update_comment (uid tid cid : Nat) (content : String)
  | delete_comment (uid tid cid : Nat)
  | vote_on_comment (uid tid cid : Nat) (vote : String)
  | remove_vote (uid tid cid : Nat)
  | cache_expire (k : String)

/-- Dispatch one request: the response or error, and the next state. -/
def run (s : St) : Op → Except HErr Resp × St
  | .register username email pw => register s username email pw
  | .login username pw gen sendOk => login s username pw gen sendOk
  | .verify_2fa uid code => verify_2fa s uid code
  | .setup_telegram uid chatId verifyOk => setup_telegram s uid chatId verifyOk
  | .disable_2fa uid => disable_2fa s uid
  | .change_password uid current new => change_password s uid current new
  | .create_tool uid name description category url => create_tool s uid name description category url
  | .get_tools cat st skip limit => get_tools s cat st skip limit
  | .get_tools_stats => get_tools_stats s
  | .get_tool tid => get_tool s tid
  | .update_tool uid tid name description category url => update_tool s uid tid name description category url
  | .delete_tool uid tid => delete_tool s uid tid
  | .approve_tool uid tid approved reason => approve_tool s uid tid approved reason
  | .update_user_role uid target_id new_role => update_user_role s uid target_id new_role
  | .get_admin_stats uid => get_admin_stats s uid
  | .rate_tool uid tid rating => rate_tool s uid tid rating
  | .get_my_rating uid tid => get_my_rating s uid tid
  | .get_rating_stats tid => get_rating_stats s tid
  | .delete_rating uid tid => delete_rating s uid tid
  | .create_comment uid tid content => create_comment s uid tid [("content", content)]
  | .get_tool_comments tid skip limit => get_tool_comments s tid skip limit
  | .update_comment uid tid cid content => update_comment s uid tid cid [("content", content)]
  | .delete_comment uid tid cid => delete_comment s uid tid cid
  | .vote_on_comment uid tid cid vote => vote_on_comment s uid tid cid [("vote", vote)]
  | .remove_vote uid tid cid => remove_vote s uid tid cid
  | .cache_expire k => (.ok .done, { s with cache := cacheDelete s.cache k })

/-- The state after one request. -/
def stepSt (s : St) (op : Op) : St := (run s op).2

/-- Well-formedness of a starting state: an empty cache, audit log and
dispatch log, and database contents satisfying the schema constraints
(primary keys below their counters and pairwise distinct, ratings in range
referencing existing tools, one rating per user and tool, and a Telegram
chat id on every account with 2FA enabled). -/
structure InitOK (s : St) : Prop where
  cache_nil : s.cache = []
  audit_nil : s.audit = []
  sent_nil : s.sent = []
  user_ids : s.users.Pairwise (fun a b => a.id ≠ b.id)
  user_lt : ∀ u ∈ s.users, u.id < s.next_user_id
  twofa : ∀ u ∈ s.users, u.is_2fa_enabled = true → truthyOptStr u.telegram_id = true
  tool_ids : s.tools.Pairwise (fun a b => a.id ≠ b.id)
  tool_lt : ∀ t ∈ s.tools, t.id < s.next_tool_id
  rat_ids : s.ratings.Pairwise (fun a b => a.id ≠ b.id)
  rat_lt : ∀ r ∈ s.ratings, r.id < s.next_rating_id
  rat_range : ∀ r ∈ s.ratings, 1 ≤ r.rating ∧ r.rating ≤ 5
  rat_fk : ∀ r ∈ s.ratings, ∃ t ∈ s.tools, t.id = r.tool_id
  rat_one : s.ratings.Pairwise (fun a b => ¬ (a.tool_id = b.tool_id ∧ a.user_id = b.user_id))

/-- The inductive system invariant: the schema constraints together with
coherence of every cached rating-statistics entry, which either matches
the statistics of the current rating rows of its tool or belongs to an
already deleted tool (an id below the counter no existing tool carries). -/
structure Inv (s : St) : Prop where
  twofa : ∀ u ∈ s.users, u.is_2fa_enabled = true → truthyOptStr u.telegram_id = true
  tool_ids : s.tools.Pairwise (fun a b => a.id ≠ b.id)
  tool_lt : ∀ t ∈ s.tools, t.id < s.next_tool_id
  rat_ids : s.ratings.Pairwise (fun a b => a.id ≠ b.id)
  rat_lt : ∀ r ∈ s.ratings, r.id < s.next_rating_id
  rat_range : ∀ r ∈ s.ratings, 1 ≤ r.rating ∧ r.rating ≤ 5
  rat_fk : ∀ r ∈ s.ratings, ∃ t ∈ s.tools, t.id = r.tool_id
  rat_one : s.ratings.Pairwise (fun a b => ¬ (a.tool_id = b.tool_id ∧ a.user_id = b.user_id))
  coher : ∀ n v, cacheGet s.cache (ratingStatsKey n) = some v →
    (∃ stv, statsPayload (ratingRowsOf s n) = some stv ∧ v = .ratingStats stv)
    ∨ ((∀ t ∈ s.tools, t.id ≠ n) ∧ n < s.next_tool_id)

/-- The states reachable from a well-formed starting state by any sequence
of requests. -/
inductive Reachable : St → Prop
  | base (s : St) : InitOK s → Reachable s
  | step (s : St) (op : Op) : Reachable s → Reachable (stepSt s op)

/-- The rating statistics carried by a response, whether computed fresh or
returned from the cache (both serialize to the same RatingStats payload). -/
def statsView : Except HErr Resp → Option RatingStatsVal
  | .ok (.stats v) => some v
  | .ok (.cachedVal (.ratingStats v)) => some v
  | _ => none

/-- Sample admin account. -/
def uAdmin : UserRec := ⟨1, "alice", "alice@example.com", hashPassword "pw1", none, false, .admin⟩

/-- Sample regular account with 2FA enabled. -/
def uBob : UserRec := ⟨2, "bob", "bob@example.com", hashPassword "pw2", some "chat2", true, .user⟩

/-- Sample tool submitted by the regular account. -/
def tSample : ToolRec := ⟨1, "ToolOne", "a first sample tool", .development, .pending, none, some 2, none, none⟩

/-- Sample rating of the sample tool by the admin. -/
def rSample : RatingRec := ⟨1, 1, 1, 4⟩

/-- Sample comment on the sample tool by the regular account. -/
def cmSample : CommentRec := ⟨1, 1, 2, "nice tool indeed", 1, 0⟩

/-- Sample vote of the admin on the sample comment. -/
def vSample : VoteRec := ⟨1, 1, 1, "upvote"⟩

/-- A small well-formed starting state used by the concrete witnesses. -/
def s0 : St :=
  ⟨[uAdmin, uBob], [tSample], [rSample], [cmSample], [vSample], [], [], [], 3, 2, 2, 2, 2⟩

/-- The sample state with a pending 2FA code cached for the 2FA user. -/
def s0code : St := { s0 with cache := [⟨twoFaKey 2, .str "123456", 300⟩] }

theorem digitVal_digitChar : ∀ d, d < 10 → digitVal (Nat.digitChar d) = d := by decide

theorem digitsVal_append_one (l : List Char) (c : Char) :
    digitsVal (l ++ [c]) = 10 * digitsVal l + digitVal c := by
  simp [digitsVal, List.foldl_append]

theorem digitsVal_natDigitsF : ∀ (f n : Nat), n < f → digitsVal (natDigitsF f n) = n := by
  intro f
  induction f with
  | zero => intro n h; omega
  | succ f ih =>
    intro n h
    rw [natDigitsF]
    split
    · next h10 => simp [digitsVal, digitVal_digitChar n h10]
    · next h10 =>
      have hdiv : n / 10 < f := by
        have := Nat.div_lt_self (show 0 < n by omega) (show 1 < 10 by omega)
        omega
      rw [digitsVal_append_one, ih (n / 10) hdiv,
        digitVal_digitChar (n % 10) (Nat.mod_lt n (by omega))]
      omega

theorem digitsVal_natDigits (n : Nat) : digitsVal (natDigits n) = n :=
  digitsVal_natDigitsF (n + 1) n (Nat.lt_succ_self n)

theorem natDigits_inj {m n : Nat} (h : natDigits m = natDigits n) : m = n := by
  have h2 := congrArg digitsVal h
  rwa [digitsVal_natDigits, digitsVal_natDigits] at h2

theorem natStr_inj {m n : Nat} (h : natStr m = natStr n) : m = n := by
  unfold natStr at h
  injection h with h2
  exact natDigits_inj h2

theorem ratingStatsKey_inj {m n : Nat} (h : ratingStatsKey m = ratingStatsKey n) : m = n := by
  unfold ratingStatsKey at h
  have h2 := congrArg String.data h
  rw [String.data_append, String.data_append] at h2
  exact natStr_inj (String.ext (List.append_cancel_left h2))

theorem data_ne_of_head {a b : String} {c d : Char} (ha : a.data.head? = some c)
    (hb : b.data.head? = some d) (h : c ≠ d) : a ≠ b := by
  intro e
  subst e
  rw [ha] at hb
  exact h (Option.some.inj hb)

theorem headq_append (a b : String) (c : Char) (h : a.data.head? = some c) :
    (a ++ b).data.head? = some c := by
  rw [String.data_append, List.head?_append, h]
  rfl

theorem ratingStatsKey_head (n : Nat) : (ratingStatsKey n).data.head? = some 'r' :=
  headq_append _ _ _ rfl

theorem twoFaKey_head (n : Nat) : (twoFaKey n).data.head? = some '2' :=
  headq_append _ _ _ rfl

theorem toolsListKey_head (cat : Option ToolCategory) (st : Option ToolStatus)
    (skip limit : Nat) : (toolsListKey cat st skip limit).data.head? = some 't' :=
  headq_append _ _ _ (headq_append _ _ _ (headq_append _ _ _ (headq_append _ _ _
    (headq_append _ _ _ (headq_append _ _ _ rfl)))))

theorem commentsKey_head (tid skip limit : Nat) :
    (commentsKey tid skip limit).data.head? = some 'c' :=
  headq_append _ _ _ (headq_append _ _ _ (headq_append _ _ _ (headq_append _ _ _ rfl)))

theorem rsk_ne_twoFaKey (n uid : Nat) : ratingStatsKey n ≠ twoFaKey uid :=
  data_ne_of_head (ratingStatsKey_head n) (twoFaKey_head uid) (by decide)

theorem rsk_ne_toolsListKey (n : Nat) (cat : Option ToolCategory) (st : Option ToolStatus)
    (skip limit : Nat) : ratingStatsKey n ≠ toolsListKey cat st skip limit :=
  data_ne_of_head (ratingStatsKey_head n) (toolsListKey_head cat st skip limit) (by decide)

theorem rsk_ne_toolsStatsKey (n : Nat) : ratingStatsKey n ≠ toolsStatsKey :=
  data_ne_of_head (ratingStatsKey_head n) rfl (by decide)

theorem rsk_ne_adminStatsKey (n : Nat) : ratingStatsKey n ≠ adminStatsKey :=
  data_ne_of_head (ratingStatsKey_head n) rfl (by decide)

theorem rsk_ne_commentsKey (n tid skip limit : Nat) :
    ratingStatsKey n ≠ commentsKey tid skip limit :=
  data_ne_of_head (ratingStatsKey_head n) (commentsKey_head tid skip limit) (by decide)

theorem find?_filter_keep {α : Type} (l : List α) (p q : α → Bool)
    (h : ∀ x, p x = true → q x = true) : (l.filter q).find? p = l.find? p := by
  induction l with
  | nil => rfl
  | cons a t ih =>
    cases hqa : q a with
    | true =>
      rw [List.filter_cons_of_pos hqa, List.find?_cons, List.find?_cons]
      cases hpa : p a with
      | true => rfl
      | false => exact ih
    | false =>
      have hpa : p a = false := by
        cases hpc : p a with
        | true => exact absurd (h a hpc) (by simp [hqa])
        | false => rfl
      rw [List.filter_cons_of_neg (by simp [hqa]), List.find?_cons, hpa, ih]

theorem find?_filter_none {α : Type} (l : List α) (p q : α → Bool)
    (h : ∀ x, q x = true → p x = false) : (l.filter q).find? p = none := by
  rw [List.find?_eq_none]
  intro x hx
  rw [List.mem_filter] at hx
  simp [h x hx.2]

theorem cacheFind_cacheSet (c : List CEntry) (k : String) (v : CacheVal) (e : Nat)
    (k' : String) :
    cacheFind (cacheSet c k v e) k' = if k' = k then some ⟨k, v, e⟩ else cacheFind c k' := by
  unfold cacheFind cacheSet
  by_cases h : k' = k
  · subst h; simp [List.find?_cons]
  · have hb : ((CEntry.mk k v e).key == k') = false := by
      simp only [beq_eq_false_iff_ne, ne_eq]
      exact fun e2 => h e2.symm
    simp only [List.find?_cons, hb, if_neg h]
    apply find?_filter_keep
    intro x hx
    have hk : x.key = k' := by simpa using hx
    simp [hk, h]

theorem cacheFind_cacheDelete (c : List CEntry) (k k' : String) :
    cacheFind (cacheDelete c k) k' = if k' = k then none else cacheFind c k' := by
  unfold cacheFind cacheDelete
  by_cases h : k' = k
  · subst h
    rw [if_pos rfl]
    apply find?_filter_none
    intro x hx
    have : ¬ x.key = k' := by simpa using hx
    simpa using this
  · rw [if_neg h]
    apply find?_filter_keep
    intro x hx
    have hk : x.key = k' := by simpa using hx
    simp [hk, h]

theorem cacheFind_clearPat (c : List CEntry) (p k : String) :
    cacheFind (clearPat c p) k =
      if strHasPref p k = true then none else cacheFind c k := by
  unfold cacheFind clearPat
  by_cases h : strHasPref p k = true
  · rw [if_pos h]
    apply find?_filter_none
    intro x hx
    have : ¬ strHasPref p x.key = true := by simpa using hx
    cases hpk : x.key == k with
    | false => rfl
    | true =>
      have : ¬ strHasPref p k = true := by
        rwa [(by simpa using hpk : x.key = k)] at this
      exact absurd h this
  · rw [if_neg h]
    apply find?_filter_keep
    intro x hx
    have hk : x.key = k := by simpa using hx
    rw [hk]
    simpa using h

theorem cacheGet_eq_find (c : List CEntry) (k : String) :
    cacheGet c k = (cacheFind c k).map (fun e => e.val) := rfl

theorem cacheGet_cacheSet (c : List CEntry) (k : String) (v : CacheVal) (e : Nat)
    (k' : String) :
    cacheGet (cacheSet c k v e) k' = if k' = k then some v else cacheGet c k' := by
  rw [cacheGet_eq_find, cacheFind_cacheSet]
  by_cases h : k' = k <;> simp [h, cacheGet_eq_find]

theorem cacheGet_cacheDelete (c : List CEntry) (k k' : String) :
    cacheGet (cacheDelete c k) k' = if k' = k then none else cacheGet c k' := by
  rw [cacheGet_eq_find, cacheFind_cacheDelete]
  by_cases h : k' = k <;> simp [h, cacheGet_eq_find]

theorem cacheGet_clearPat (c : List CEntry) (p k : String) :
    cacheGet (clearPat c p) k = if strHasPref p k = true then none else cacheGet c k := by
  rw [cacheGet_eq_find, cacheFind_clearPat]
  by_cases h : strHasPref p k = true <;> simp [h, cacheGet_eq_find]

theorem buildDist_go (rows : List RatingRec) (d : DistVal)
    (h : ∀ r ∈ rows, 1 ≤ r.rating ∧ r.rating ≤ 5) :
    rows.foldlM (fun d r => distAdd d r.rating) d = some
      ⟨d.d1 + (rows.filter (fun r => r.rating == 1)).length,
       d.d2 + (rows.filter (fun r => r.rating == 2)).length,
       d.d3 + (rows.filter (fun r => r.rating == 3)).length,
       d.d4 + (rows.filter (fun r => r.rating == 4)).length,
       d.d5 + (rows.filter (fun r => r.rating == 5)).length⟩ := by
  induction rows generalizing d with
  | nil => simp
  | cons r t ih =>
    have hr := h r (List.mem_cons_self r t)
    have ht : ∀ x ∈ t, 1 ≤ x.rating ∧ x.rating ≤ 5 :=
      fun x hx => h x (List.mem_cons_of_mem r hx)
    have hv : r.rating = 1 ∨ r.rating = 2 ∨ r.rating = 3 ∨ r.rating = 4 ∨ r.rating = 5 := by
      omega
    rw [List.foldlM_cons]
    rcases hv with hv | hv | hv | hv | hv
    · rw [hv]
      show List.foldlM (fun d r => distAdd d r.rating) ⟨d.d1 + 1, d.d2, d.d3, d.d4, d.d5⟩ t = _
      rw [ih _ ht]
      simp [List.filter_cons, hv, DistVal.mk.injEq] <;> omega
    · rw [hv]
      show List.foldlM (fun d r => distAdd d r.rating) ⟨d.d1, d.d2 + 1, d.d3, d.d4, d.d5⟩ t = _
      rw [ih _ ht]
      simp [List.filter_cons, hv, DistVal.mk.injEq] <;> omega
    · rw [hv]
      show List.foldlM (fun d r => distAdd d r.rating) ⟨d.d1, d.d2, d.d3 + 1, d.d4, d.d5⟩ t = _
      rw [ih _ ht]
      simp [List.filter_cons, hv, DistVal.mk.injEq] <;> omega
    · rw [hv]
      show List.foldlM (fun d r => distAdd d r.rating) ⟨d.d1, d.d2, d.d3, d.d4 + 1, d.d5⟩ t = _
      rw [ih _ ht]
      simp [List.filter_cons, hv, DistVal.mk.injEq] <;> omega
    · rw [hv]
      show List.foldlM (fun d r => distAdd d r.rating) ⟨d.d1, d.d2, d.d3, d.d4, d.d5 + 1⟩ t = _
      rw [ih _ ht]
      simp [List.filter_cons, hv, DistVal.mk.injEq] <;> omega

theorem buildDist_eq (rows : List RatingRec)
    (h : ∀ r ∈ rows, 1 ≤ r.rating ∧ r.rating ≤ 5) :
    buildDist rows = some
      ⟨(rows.filter (fun r => r.rating == 1)).length,
       (rows.filter (fun r => r.rating == 2)).length,
       (rows.filter (fun r => r.rating == 3)).length,
       (rows.filter (fun r => r.rating == 4)).length,
       (rows.filter (fun r => r.rating == 5)).length⟩ := by
  unfold buildDist
  rw [buildDist_go rows ⟨0, 0, 0, 0, 0⟩ h]
  simp

theorem sumRatings_go (rows : List RatingRec) (a : ℚ) :
    rows.foldl (fun a r => a + (r.rating : ℚ)) a
      = a + (rows.map (fun r => (r.rating : ℚ))).sum := by
  induction rows generalizing a with
  | nil => simp
  | cons r t ih => simp [List.foldl_cons, ih, List.sum_cons]; ring

theorem sumRatings_eq (rows : List RatingRec) :
    sumRatings rows = (rows.map (fun r => (r.rating : ℚ))).sum := by
  unfold sumRatings
  rw [sumRatings_go]
  simp

theorem statsPayload_spec (rows : List RatingRec)
    (h : ∀ r ∈ rows, 1 ≤ r.rating ∧ r.rating ≤ 5) :
    ∃ st, statsPayload rows = some st ∧
      st.total_ratings = rows.length ∧
      st.average_rating = (if rows.isEmpty then 0
        else pyRound2 ((rows.map (fun r => (r.rating : ℚ))).sum / (rows.length : ℚ))) ∧
      st.d1 = (rows.filter (fun r => r.rating == 1)).length ∧
      st.d2 = (rows.filter (fun r => r.rating == 2)).length ∧
      st.d3 = (rows.filter (fun r => r.rating == 3)).length ∧
      st.d4 = (rows.filter (fun r => r.rating == 4)).length ∧
      st.d5 = (rows.filter (fun r => r.rating == 5)).length ∧
      (rows.isEmpty = true → st = ⟨0, 0, 0, 0, 0, 0, 0⟩) := by
  cases he : rows.isEmpty with
  | true =>
    have hnil : rows = [] := List.isEmpty_iff.mp he
    subst hnil
    exact ⟨⟨0, 0, 0, 0, 0, 0, 0⟩, by simp [statsPayload], by simp, by simp, by simp,
      by simp, by simp, by simp, by simp, fun _ => rfl⟩
  | false =>
    have h1 : statsPayload rows = some
        ⟨pyRound2 ((rows.map (fun r => (r.rating : ℚ))).sum / (rows.length : ℚ)),
         rows.length,
         (rows.filter (fun r => r.rating == 1)).length,
         (rows.filter (fun r => r.rating == 2)).length,
         (rows.filter (fun r => r.rating == 3)).length,
         (rows.filter (fun r => r.rating == 4)).length,
         (rows.filter (fun r => r.rating == 5)).length⟩ := by
      unfold statsPayload
      rw [if_neg (by simp [he]), buildDist_eq rows h, sumRatings_eq]
    refine ⟨_, h1, rfl, ?_, rfl, rfl, rfl, rfl, rfl, ?_⟩
    · rw [if_neg (by simp [he])]
    · intro hc
      exact absurd hc (by simp)

theorem filter_map_eq {α : Type} (l : List α) (f : α → α) (p : α → Bool)
    (h : ∀ x ∈ l, p (f x) = p x) (h2 : ∀ x ∈ l, p x = true → f x = x) :
    (l.map f).filter p = l.filter p := by
  induction l with
  | nil => rfl
  | cons a t ih =>
    simp only [List.map_cons, List.filter_cons]
    rw [h a (List.mem_cons_self a t)]
    have iht := ih (fun x hx => h x (List.mem_cons_of_mem a hx))
      (fun x hx hp => h2 x (List.mem_cons_of_mem a hx) hp)
    cases hpa : p a with
    | true => rw [h2 a (List.mem_cons_self a t) hpa, iht]
    | false => exact iht

theorem filter_filter_eq {α : Type} (l : List α) (p q : α → Bool)
    (h : ∀ x ∈ l, p x = true → q x = true) :
    (l.filter q).filter p = l.filter p := by
  rw [List.filter_filter]
  apply List.filter_congr
  intro x hx
  cases hpx : p x with
  | true => simp [h x hx hpx]
  | false => simp

theorem filter_append_one {α : Type} (l : List α) (x : α) (p : α → Bool)
    (hp : p x = false) : (l ++ [x]).filter p = l.filter p := by
  rw [List.filter_append]
  simp [List.filter_cons, hp]

theorem getRsk_clearPat {c : List CEntry} {p : String} {n : Nat} {v : CacheVal}
    (h : cacheGet (clearPat c p) (ratingStatsKey n) = some v) :
    cacheGet c (ratingStatsKey n) = some v := by
  rw [cacheGet_clearPat] at h
  by_cases hp : strHasPref p (ratingStatsKey n) = true
  · rw [if_pos hp] at h; cases h
  · rwa [if_neg hp] at h

theorem getRsk_cacheDelete {c : List CEntry} {k : String} {n : Nat} {v : CacheVal}
    (h : cacheGet (cacheDelete c k) (ratingStatsKey n) = some v) :
    cacheGet c (ratingStatsKey n) = some v ∧ ratingStatsKey n ≠ k := by
  rw [cacheGet_cacheDelete] at h
  by_cases hk : ratingStatsKey n = k
  · rw [if_pos hk] at h; cases h
  · rw [if_neg hk] at h; exact ⟨h, hk⟩

theorem getRsk_cacheSet_ne {c : List CEntry} {k : String} {v0 : CacheVal} {e : Nat}
    {n : Nat} {v : CacheVal} (hne : ratingStatsKey n ≠ k)
    (h : cacheGet (cacheSet c k v0 e) (ratingStatsKey n) = some v) :
    cacheGet c (ratingStatsKey n) = some v := by
  rwa [cacheGet_cacheSet, if_neg hne] at h

theorem Inv_of {s s' : St} (h : Inv s)
    (hU : ∀ u ∈ s'.users, u.is_2fa_enabled = true → truthyOptStr u.telegram_id = true)
    (hT : s'.tools = s.tools)
    (hR : s'.ratings = s.ratings)
    (hnT : s'.next_tool_id = s.next_tool_id)
    (hnR : s'.next_rating_id = s.next_rating_id)
    (hC : ∀ n v, cacheGet s'.cache (ratingStatsKey n) = some v →
      cacheGet s.cache (ratingStatsKey n) = some v) : Inv s' := by
  refine ⟨hU, hT ▸ h.tool_ids, ?_, hR ▸ h.rat_ids, ?_, ?_, ?_, hR ▸ h.rat_one, ?_⟩
  · rw [hT, hnT]; exact h.tool_lt
  · rw [hR, hnR]; exact h.rat_lt
  · rw [hR]; exact h.rat_range
  · rw [hR, hT]; exact h.rat_fk
  · intro n v hv
    have h2 := h.coher n v (hC n v hv)
    unfold ratingRowsOf
    unfold ratingRowsOf at h2
    rw [hR, hT, hnT]
    exact h2

theorem inv_register (s : St) (a b c : String) (h : Inv s) :
    Inv (stepSt s (.register a b c)) := by
  show Inv (register s a b c).2
  unfold register
  split
  · exact h
  · split
    · exact h
    · refine Inv_of h ?_ rfl rfl rfl rfl (fun n v hv => hv)
      intro u hu
      rcases List.mem_append.mp hu with hu | hu
      · exact h.twofa u hu
      · simp at hu
        rw [hu]
        intro hfalse
        cases hfalse

theorem inv_login (s : St) (a b g : String) (ok : Bool) (h : Inv s) :
    Inv (stepSt s (.login a b g ok)) := by
  show Inv (login s a b g ok).2
  unfold login
  split
  · exact h
  · split
    · exact h
    · split
      · split
        · exact Inv_of h h.twofa rfl rfl rfl rfl
            (fun n v hv => getRsk_cacheSet_ne (rsk_ne_twoFaKey n _) hv)
        · exact Inv_of h h.twofa rfl rfl rfl rfl
            (fun n v hv => getRsk_cacheSet_ne (rsk_ne_twoFaKey n _) hv)
      · exact Inv_of h h.twofa rfl rfl rfl rfl (fun n v hv => hv)

theorem inv_verify_2fa (s : St) (uid : Nat) (code : String) (h : Inv s) :
    Inv (stepSt s (.verify_2fa uid code)) := by
  show Inv (verify_2fa s uid code).2
  unfold verify_2fa
  split
  · exact h
  · split
    · exact h
    · split
      · exact h
      · split
        · exact h
        · exact Inv_of h h.twofa rfl rfl rfl rfl
            (fun n v hv => (getRsk_cacheDelete hv).1)

theorem inv_setup_telegram (s : St) (uid : Nat) (chatId : String) (ok : Bool) (h : Inv s) :
    Inv (stepSt s (.setup_telegram uid chatId ok)) := by
  show Inv (setup_telegram s uid chatId ok).2
  unfold setup_telegram
  split
  · exact h
  · next u hfind =>
    split
    · exact h
    · next hcond =>
      refine Inv_of h ?_ rfl rfl rfl rfl (fun n v hv => hv)
      intro x hx
      rcases List.mem_map.mp hx with ⟨y, hy, rfl⟩
      by_cases hid : (y.id == u.id) = true
      · rw [if_pos hid]
        have hne : chatId.isEmpty = false := by
          cases hemp : chatId.isEmpty
          · rfl
          · exact absurd (by simp [hemp]) hcond
        intro _
        simp [truthyOptStr, hne]
      · rw [if_neg hid]
        exact h.twofa y hy

theorem inv_disable_2fa (s : St) (uid : Nat) (h : Inv s) :
    Inv (stepSt s (.disable_2fa uid)) := by
  show Inv (disable_2fa s uid).2
  unfold disable_2fa
  split
  · exact h
  · next u hfind =>
    refine Inv_of h ?_ rfl rfl rfl rfl (fun n v hv => hv)
    intro x hx
    rcases List.mem_map.mp hx with ⟨y, hy, rfl⟩
    by_cases hid : (y.id == u.id) = true
    · rw [if_pos hid]
      intro hfalse
      cases hfalse
    · rw [if_neg hid]
      exact h.twofa y hy

theorem inv_change_password (s : St) (uid : Nat) (a b : String) (h : Inv s) :
    Inv (stepSt s (.change_password uid a b)) := by
  show Inv (change_password s uid a b).2
  unfold change_password
  split
  · exact h
  · next u hfind =>
    split
    · exact h
    · split
      · exact h
      · refine Inv_of h ?_ rfl rfl rfl rfl (fun n v hv => hv)
        intro x hx
        rcases List.mem_map.mp hx with ⟨y, hy, rfl⟩
        by_cases hid : (y.id == u.id) = true
        · rw [if_pos hid]
          exact h.twofa y hy
        · rw [if_neg hid]
          exact h.twofa y hy

theorem inv_update_user_role (s : St) (uid tid : Nat) (r : Role) (h : Inv s) :
    Inv (stepSt s (.update_user_role uid tid r)) := by
  show Inv (update_user_role s uid tid r).2
  unfold update_user_role
  split
  · exact h
  · split
    · exact h
    · split
      · exact h
      · split
        · exact h
        · refine Inv_of h ?_ rfl rfl rfl rfl (fun n v hv => hv)
          intro u hu
          rcases List.mem_map.mp hu with ⟨x, hx, rfl⟩
          by_cases hid : (x.id == tid) = true
          · rw [if_pos hid]
            exact h.twofa x hx
          · rw [if_neg hid]
            exact h.twofa x hx

theorem inv_get_tool (s : St) (tid : Nat) (h : Inv s) :
    Inv (stepSt s (.get_tool tid)) := by
  show Inv (get_tool s tid).2
  unfold get_tool
  split <;> exact h

theorem inv_get_my_rating (s : St) (uid tid : Nat) (h : Inv s) :
    Inv (stepSt s (.get_my_rating uid tid)) := by
  show Inv (get_my_rating s uid tid).2
  unfold get_my_rating
  split
  · exact h
  · split <;> exact h

theorem inv_get_tools (s : St) (cat : Option ToolCategory) (st : Option ToolStatus)
    (skip limit : Nat) (h : Inv s) : Inv (stepSt s (.get_tools cat st skip limit)) := by
  show Inv (get_tools s cat st skip limit).2
  unfold get_tools
  dsimp only
  split
  · exact h
  · exact Inv_of h h.twofa rfl rfl rfl rfl
      (fun n v hv => getRsk_cacheSet_ne (rsk_ne_toolsListKey n cat st skip limit) hv)

theorem inv_get_tools_stats (s : St) (h : Inv s) : Inv (stepSt s .get_tools_stats) := by
  show Inv (get_tools_stats s).2
  unfold get_tools_stats
  split
  · exact h
  · exact Inv_of h h.twofa rfl rfl rfl rfl
      (fun n v hv => getRsk_cacheSet_ne (rsk_ne_toolsStatsKey n) hv)

theorem inv_get_admin_stats (s : St) (uid : Nat) (h : Inv s) :
    Inv (stepSt s (.get_admin_stats uid)) := by
  show Inv (get_admin_stats s uid).2
  unfold get_admin_stats
  split
  · exact h
  · split
    · exact h
    · split
      · exact h
      · exact Inv_of h h.twofa rfl rfl rfl rfl
          (fun n v hv => getRsk_cacheSet_ne (rsk_ne_adminStatsKey n) hv)

theorem inv_get_tool_comments (s : St) (tid skip limit : Nat) (h : Inv s) :
    Inv (stepSt s (.get_tool_comments tid skip limit)) := by
  show Inv (get_tool_comments s tid skip limit).2
  unfold get_tool_comments
  dsimp only
  split
  · exact h
  · exact Inv_of h h.twofa rfl rfl rfl rfl
      (fun n v hv => getRsk_cacheSet_ne (rsk_ne_commentsKey n tid skip limit) hv)

theorem inv_create_comment (s : St) (uid tid : Nat) (content : String) (h : Inv s) :
    Inv (stepSt s (.create_comment uid tid content)) := by
  show Inv (create_comment s uid tid [("content", content)]).2
  unfold create_comment
  split
  · exact h
  · split
    · exact h
    · split
      · exact h
      · exact Inv_of h h.twofa rfl rfl rfl rfl (fun n v hv => getRsk_clearPat hv)

theorem inv_update_comment (s : St) (uid tid cid : Nat) (content : String) (h : Inv s) :
    Inv (stepSt s (.update_comment uid tid cid content)) := by
  show Inv (update_comment s uid tid cid [("content", content)]).2
  unfold update_comment
  split
  · exact h
  · split
    · exact h
    · split
      · exact h
      · split
        · exact h
        · exact Inv_of h h.twofa rfl rfl rfl rfl (fun n v hv => getRsk_clearPat hv)

theorem inv_delete_comment (s : St) (uid tid cid : Nat) (h : Inv s) :
    Inv (stepSt s (.delete_comment uid tid cid)) := by
  show Inv (delete_comment s uid tid cid).2
  unfold delete_comment
  split
  · exact h
  · split
    · exact h
    · split
      · exact h
      · exact Inv_of h h.twofa rfl rfl rfl rfl (fun n v hv => getRsk_clearPat hv)

theorem inv_vote_on_comment (s : St) (uid tid cid : Nat) (vote : String) (h : Inv s) :
    Inv (stepSt s (.vote_on_comment uid tid cid vote)) := by
  show Inv (vote_on_comment s uid tid cid [("vote", vote)]).2
  unfold vote_on_comment
  split
  · exact h
  · split
    · exact h
    · split
      · exact h
      · split
        · exact Inv_of h h.twofa rfl rfl rfl rfl (fun n v hv => getRsk_clearPat hv)
        · exact Inv_of h h.twofa rfl rfl rfl rfl (fun n v hv => getRsk_clearPat hv)

theorem inv_remove_vote (s : St) (uid tid cid : Nat) (h : Inv s) :
    Inv (stepSt s (.remove_vote uid tid cid)) := by
  show Inv (remove_vote s uid tid cid).2
  unfold remove_vote
  dsimp only
  split
  · exact h
  · split
    · exact h
    · split
      · exact Inv_of h h.twofa rfl rfl rfl rfl (fun n v hv => getRsk_clearPat hv)
      · exact Inv_of h h.twofa rfl rfl rfl rfl (fun n v hv => getRsk_clearPat hv)

theorem inv_cache_expire (s : St) (k : String) (h : Inv s) :
    Inv (stepSt s (.cache_expire k)) := by
  show Inv { s with cache := cacheDelete s.cache k }
  exact Inv_of h h.twofa rfl rfl rfl rfl (fun n v hv => (getRsk_cacheDelete hv).1)

theorem eq_of_key_pairwise {α β : Type} (key : α → β) {l : List α}
    (hp : l.Pairwise (fun a b => key a ≠ key b)) {x y : α}
    (hx : x ∈ l) (hy : y ∈ l) (h : key x = key y) : x = y := by
  induction l with
  | nil => cases hx
  | cons a t ih =>
    rcases List.pairwise_cons.mp hp with ⟨ha, ht⟩
    rcases List.mem_cons.mp hx with rfl | hx2 <;> rcases List.mem_cons.mp hy with rfl | hy2
    · rfl
    · exact absurd h (ha y hy2)
    · exact absurd h.symm (ha x hx2)
    · exact ih ht hx2 hy2

theorem inv_toolMap {s s' : St} (h : Inv s) (f : ToolRec → ToolRec)
    (hf : ∀ t, (f t).id = t.id)
    (hT : s'.tools = s.tools.map f)
    (hU : s'.users = s.users)
    (hR : s'.ratings = s.ratings)
    (hnT : s'.next_tool_id = s.next_tool_id)
    (hnR : s'.next_rating_id = s.next_rating_id)
    (hC : ∀ n v, cacheGet s'.cache (ratingStatsKey n) = some v →
      cacheGet s.cache (ratingStatsKey n) = some v) : Inv s' := by
  refine ⟨?_, ?_, ?_, hR ▸ h.rat_ids, ?_, ?_, ?_, hR ▸ h.rat_one, ?_⟩
  · rw [hU]; exact h.twofa
  · rw [hT]
    refine List.pairwise_map.mpr (h.tool_ids.imp ?_)
    intro a b hab
    rw [hf a, hf b]
    exact hab
  · rw [hT, hnT]
    intro t ht
    rcases List.mem_map.mp ht with ⟨x, hx, rfl⟩
    rw [hf x]
    exact h.tool_lt x hx
  · rw [hR, hnR]; exact h.rat_lt
  · rw [hR]; exact h.rat_range
  · rw [hR, hT]
    intro r hr
    rcases h.rat_fk r hr with ⟨t, ht, hid⟩
    exact ⟨f t, List.mem_map_of_mem f ht, by rw [hf t]; exact hid⟩
  · intro n v hv
    have h2 := h.coher n v (hC n v hv)
    unfold ratingRowsOf at h2 ⊢
    rw [hR, hT, hnT]
    rcases h2 with h2 | ⟨h2, h3⟩
    · exact Or.inl h2
    · refine Or.inr ⟨?_, h3⟩
      intro t ht
      rcases List.mem_map.mp ht with ⟨x, hx, rfl⟩
      rw [hf x]
      exact h2 x hx

theorem inv_update_tool (s : St) (uid tid : Nat) (nm ds : Option String)
    (ct : Option ToolCategory) (ur : Option (Option String)) (h : Inv s) :
    Inv (stepSt s (.update_tool uid tid nm ds ct ur)) := by
  show Inv (update_tool s uid tid nm ds ct ur).2
  unfold update_tool
  split
  · exact h
  · split
    · exact h
    · next t hfind =>
      split
      · exact h
      · have htid : t.id = tid := by simpa using List.find?_some hfind
        refine inv_toolMap h _ ?_ rfl rfl rfl rfl rfl
          (fun n v hv => getRsk_clearPat hv)
        intro x
        by_cases hx : (x.id == tid) = true
        · rw [if_pos hx]
          have hxid : x.id = tid := by simpa using hx
          show t.id = x.id
          rw [htid, hxid]
        · rw [if_neg hx]

theorem inv_approve_tool (s : St) (uid tid : Nat) (ap : Bool) (rs : Option String)
    (h : Inv s) : Inv (stepSt s (.approve_tool uid tid ap rs)) := by
  show Inv (approve_tool s uid tid ap rs).2
  unfold approve_tool
  split
  · exact h
  · split
    · exact h
    · split
      · exact h
      · next t hfind =>
        have htid : t.id = tid := by simpa using List.find?_some hfind
        refine inv_toolMap h _ ?_ rfl rfl rfl rfl rfl
          (fun n v hv => getRsk_clearPat hv)
        intro x
        by_cases hx : (x.id == tid) = true
        · rw [if_pos hx]
          have hxid : x.id = tid := by simpa using hx
          cases ap <;> simp [htid, hxid]
        · rw [if_neg hx]

theorem inv_create_tool (s : St) (uid : Nat) (nm ds : String) (ct : ToolCategory)
    (ur : Option String) (h : Inv s) :
    Inv (stepSt s (.create_tool uid nm ds ct ur)) := by
  show Inv (create_tool s uid nm ds ct ur).2
  unfold create_tool
  split
  · exact h
  · refine ⟨h.twofa, ?_, ?_, h.rat_ids, h.rat_lt, h.rat_range, ?_, h.rat_one, ?_⟩
    · refine List.pairwise_append.mpr ⟨h.tool_ids, List.pairwise_singleton _ _, ?_⟩
      intro a ha b hb
      rcases List.mem_singleton.mp hb with rfl
      exact Nat.ne_of_lt (h.tool_lt a ha)
    · intro t ht
      rcases List.mem_append.mp ht with ht | ht
      · exact Nat.lt_trans (h.tool_lt t ht) (Nat.lt_succ_self _)
      · rcases List.mem_singleton.mp ht with rfl
        exact Nat.lt_succ_self _
    · intro r hr
      rcases h.rat_fk r hr with ⟨t, ht, hid⟩
      exact ⟨t, List.mem_append_left _ ht, hid⟩
    · intro n v hv
      have h2 := h.coher n v (getRsk_clearPat hv)
      unfold ratingRowsOf at h2 ⊢
      rcases h2 with h2 | ⟨h2, h3⟩
      · exact Or.inl h2
      · refine Or.inr ⟨?_, Nat.lt_trans h3 (Nat.lt_succ_self _)⟩
        intro t ht
        rcases List.mem_append.mp ht with ht | ht
        · exact h2 t ht
        · rcases List.mem_singleton.mp ht with rfl
          exact Nat.ne_of_gt h3

theorem inv_delete_tool (s : St) (uid tid : Nat) (h : Inv s) :
    Inv (stepSt s (.delete_tool uid tid)) := by
  show Inv (delete_tool s uid tid).2
  unfold delete_tool
  split
  · exact h
  · next u hufind =>
    split
    · exact h
    · next t hfind =>
      split
      · exact h
      · have htmem : t ∈ s.tools := List.mem_of_find?_eq_some hfind
        have htid : t.id = tid := by simpa using List.find?_some hfind
        show Inv { s with
          tools := List.filter (fun x => x.id != t.id) s.tools,
          ratings := List.filter (fun r => r.tool_id != t.id) s.ratings,
          comments := List.filter (fun c => c.tool_id != t.id) s.comments,
          votes := List.filter
            (fun v => !(s.comments.any (fun c => c.id == v.comment_id && c.tool_id == t.id)))
            s.votes,
          audit := s.audit ++ [⟨u.id, "delete", "tool", t.id, s.audit.length⟩],
          cache := clearPat s.cache "tools:" }
        refine ⟨h.twofa, ?_, ?_, ?_, ?_, ?_, ?_, ?_, ?_⟩
        · exact h.tool_ids.sublist (List.filter_sublist _)
        · intro x hx
          exact h.tool_lt x (List.mem_of_mem_filter hx)
        · exact h.rat_ids.sublist (List.filter_sublist _)
        · intro r hr
          exact h.rat_lt r (List.mem_of_mem_filter hr)
        · intro r hr
          exact h.rat_range r (List.mem_of_mem_filter hr)
        · intro r hr
          have hrm := List.mem_filter.mp hr
          rcases h.rat_fk r hrm.1 with ⟨t0, ht0, hid0⟩
          refine ⟨t0, List.mem_filter.mpr ⟨ht0, ?_⟩, hid0⟩
          have hne : r.tool_id ≠ t.id := by simpa using hrm.2
          simpa [hid0] using hne
        · exact h.rat_one.sublist (List.filter_sublist _)
        · intro n v hv
          have h2 := h.coher n v (getRsk_clearPat hv)
          unfold ratingRowsOf at h2 ⊢
          by_cases hn : n = t.id
          · subst hn
            refine Or.inr ⟨?_, h.tool_lt t htmem⟩
            intro x hx
            have := (List.mem_filter.mp hx).2
            simpa using this
          · rcases h2 with ⟨stv, hstv, hveq⟩ | ⟨h2, h3⟩
            · refine Or.inl ⟨stv, ?_, hveq⟩
              have hcomm : List.filter (fun r => r.tool_id == n)
                  (List.filter (fun r => r.tool_id != t.id) s.ratings)
                  = List.filter (fun r => r.tool_id == n) s.ratings := by
                apply filter_filter_eq
                intro x _ hx
                have hxn : x.tool_id = n := by simpa using hx
                simp [hxn]
                omega
              rw [hcomm]
              exact hstv
            · refine Or.inr ⟨?_, h3⟩
              intro x hx
              exact h2 x (List.mem_of_mem_filter hx)

theorem inv_rate_tool (s : St) (uid tid : Nat) (rating : Int) (h : Inv s) :
    Inv (stepSt s (.rate_tool uid tid rating)) := by
  show Inv (rate_tool s uid tid rating).2
  unfold rate_tool
  split
  · exact h
  · next hval =>
    split
    · exact h
    · next u hufind =>
      split
      · exact h
      · next t htfind =>
        have htmem : t ∈ s.tools := List.mem_of_find?_eq_some htfind
        have htid : t.id = tid := by simpa using List.find?_some htfind
        dsimp only
        split
        · next ex hexfind =>
          have hexmem : ex ∈ s.ratings := List.mem_of_find?_eq_some hexfind
          have hexp := List.find?_some hexfind
          have hextool : ex.tool_id = tid := by
            simp only [Bool.and_eq_true, beq_iff_eq] at hexp
            exact hexp.1
          have hexuser : ex.user_id = u.id := by
            simp only [Bool.and_eq_true, beq_iff_eq] at hexp
            exact hexp.2
          show Inv { s with
            ratings := s.ratings.map
              (fun r => if r.id == ex.id then { ex with rating := rating } else r),
            cache := clearPat (cacheDelete s.cache (ratingStatsKey tid)) "tools:",
            audit := s.audit ++ [⟨u.id, "update_rating", "tool_rating", ex.id, s.audit.length⟩] }
          have hpres : ∀ x ∈ s.ratings,
              ((if x.id == ex.id then { ex with rating := rating } else x) : RatingRec).id = x.id
              ∧ ((if x.id == ex.id then { ex with rating := rating } else x) : RatingRec).tool_id = x.tool_id
              ∧ ((if x.id == ex.id then { ex with rating := rating } else x) : RatingRec).user_id = x.user_id := by
            intro x hx
            by_cases hxe : (x.id == ex.id) = true
            · have hxeq : x = ex := eq_of_key_pairwise RatingRec.id h.rat_ids hx hexmem
                (by simpa using hxe)
              subst hxeq
              simp
            · simp [hxe]
          refine ⟨h.twofa, h.tool_ids, h.tool_lt, ?_, ?_, ?_, ?_, ?_, ?_⟩
          · refine List.pairwise_map.mpr (h.rat_ids.imp_of_mem ?_)
            intro a b ha hb hab
            rw [(hpres a ha).1, (hpres b hb).1]
            exact hab
          · intro x hx
            rcases List.mem_map.mp hx with ⟨y, hy, rfl⟩
            rw [(hpres y hy).1]
            exact h.rat_lt y hy
          · intro x hx
            rcases List.mem_map.mp hx with ⟨y, hy, rfl⟩
            by_cases hye : (y.id == ex.id) = true
            · rw [if_pos hye]
              constructor <;> simp <;> omega
            · rw [if_neg hye]
              exact h.rat_range y hy
          · intro x hx
            rcases List.mem_map.mp hx with ⟨y, hy, rfl⟩
            rcases h.rat_fk y hy with ⟨t0, ht0, hid0⟩
            exact ⟨t0, ht0, by rw [(hpres y hy).2.1]; exact hid0⟩
          · refine List.pairwise_map.mpr (h.rat_one.imp_of_mem ?_)
            intro a b ha hb hab
            rw [(hpres a ha).2.1, (hpres b hb).2.1, (hpres a ha).2.2, (hpres b hb).2.2]
            exact hab
          · intro n v hv
            rcases getRsk_cacheDelete (getRsk_clearPat hv) with ⟨hv0, hnek⟩
            have hne : n ≠ tid := fun e => hnek (by rw [e])
            have h2 := h.coher n v hv0
            unfold ratingRowsOf at h2 ⊢
            rcases h2 with ⟨stv, hstv, hveq⟩ | ⟨h2, h3⟩
            · refine Or.inl ⟨stv, ?_, hveq⟩
              have hrows : List.filter (fun r => r.tool_id == n)
                  (s.ratings.map
                    (fun r => if r.id == ex.id then { ex with rating := rating } else r))
                  = List.filter (fun r => r.tool_id == n) s.ratings := by
                apply filter_map_eq
                · intro x hx
                  rw [(hpres x hx).2.1]
                · intro x hx hpx
                  have hxn : x.tool_id = n := by simpa using hpx
                  by_cases hxe : (x.id == ex.id) = true
                  · have hxeq : x = ex := eq_of_key_pairwise RatingRec.id h.rat_ids hx hexmem
                      (by simpa using hxe)
                    exact absurd (hxeq ▸ hxn) (by rw [hextool]; exact fun e => hne e.symm)
                  · rw [if_neg hxe]
              rw [hrows]
              exact hstv
            · exact Or.inr ⟨h2, h3⟩
        · next hexnone =>
          have hall := List.find?_eq_none.mp hexnone
          show Inv { s with
            ratings := s.ratings ++ [⟨s.next_rating_id, tid, u.id, rating⟩],
            next_rating_id := s.next_rating_id + 1,
            cache := clearPat (cacheDelete s.cache (ratingStatsKey tid)) "tools:",
            audit := s.audit ++ [⟨u.id, "create_rating", "tool_rating", s.next_rating_id, s.audit.length⟩] }
          refine ⟨h.twofa, h.tool_ids, h.tool_lt, ?_, ?_, ?_, ?_, ?_, ?_⟩
          · refine List.pairwise_append.mpr ⟨h.rat_ids, List.pairwise_singleton _ _, ?_⟩
            intro a ha b hb
            rcases List.mem_singleton.mp hb with rfl
            exact Nat.ne_of_lt (h.rat_lt a ha)
          · intro r hr
            rcases List.mem_append.mp hr with hr | hr
            · exact Nat.lt_trans (h.rat_lt r hr) (Nat.lt_succ_self _)
            · rcases List.mem_singleton.mp hr with rfl
              exact Nat.lt_succ_self _
          · intro r hr
            rcases List.mem_append.mp hr with hr | hr
            · exact h.rat_range r hr
            · rcases List.mem_singleton.mp hr with rfl
              constructor <;> simp <;> omega
          · intro r hr
            rcases List.mem_append.mp hr with hr | hr
            · rcases h.rat_fk r hr with ⟨t0, ht0, hid0⟩
              exact ⟨t0, ht0, hid0⟩
            · rcases List.mem_singleton.mp hr with rfl
              exact ⟨t, htmem, htid⟩
          · refine List.pairwise_append.mpr ⟨h.rat_one, List.pairwise_singleton _ _, ?_⟩
            intro a ha b hb
            rcases List.mem_singleton.mp hb with rfl
            intro hcon
            exact absurd (by simp [hcon.1, hcon.2] : (a.tool_id == tid && a.user_id == u.id) = true)
              (hall a ha)
          · intro n v hv
            rcases getRsk_cacheDelete (getRsk_clearPat hv) with ⟨hv0, hnek⟩
            have hne : n ≠ tid := fun e => hnek (by rw [e])
            have h2 := h.coher n v hv0
            unfold ratingRowsOf at h2 ⊢
            rcases h2 with ⟨stv, hstv, hveq⟩ | ⟨h2, h3⟩
            · refine Or.inl ⟨stv, ?_, hveq⟩
              rw [filter_append_one _ _ _ (by simp; exact fun e => hne e.symm)]
              exact hstv
            · exact Or.inr ⟨h2, h3⟩

theorem inv_delete_rating (s : St) (uid tid : Nat) (h : Inv s) :
    Inv (stepSt s (.delete_rating uid tid)) := by
  show Inv (delete_rating s uid tid).2
  unfold delete_rating
  split
  · exact h
  · next u hufind =>
    split
    · exact h
    · next r hrfind =>
      have hrmem : r ∈ s.ratings := List.mem_of_find?_eq_some hrfind
      have hrp := List.find?_some hrfind
      have hrtool : r.tool_id = tid := by
        simp only [Bool.and_eq_true, beq_iff_eq] at hrp
        exact hrp.1
      show Inv { s with
        ratings := List.filter (fun x => x.id != r.id) s.ratings,
        cache := clearPat (cacheDelete s.cache (ratingStatsKey tid)) "tools:",
        audit := s.audit ++ [⟨u.id, "delete_rating", "tool_rating", r.id, s.audit.length⟩] }
      refine ⟨h.twofa, h.tool_ids, h.tool_lt, ?_, ?_, ?_, ?_, ?_, ?_⟩
      · exact h.rat_ids.sublist (List.filter_sublist _)
      · intro x hx
        exact h.rat_lt x (List.mem_of_mem_filter hx)
      · intro x hx
        exact h.rat_range x (List.mem_of_mem_filter hx)
      · intro x hx
        exact h.rat_fk x (List.mem_of_mem_filter hx)
      · exact h.rat_one.sublist (List.filter_sublist _)
      · intro n v hv
        rcases getRsk_cacheDelete (getRsk_clearPat hv) with ⟨hv0, hnek⟩
        have hne : n ≠ tid := fun e => hnek (by rw [e])
        have h2 := h.coher n v hv0
        unfold ratingRowsOf at h2 ⊢
        rcases h2 with ⟨stv, hstv, hveq⟩ | ⟨h2, h3⟩
        · refine Or.inl ⟨stv, ?_, hveq⟩
          have hrows : List.filter (fun x => x.tool_id == n)
              (List.filter (fun x => x.id != r.id) s.ratings)
              = List.filter (fun x => x.tool_id == n) s.ratings := by
            apply filter_filter_eq
            intro x hx hpx
            have hxn : x.tool_id = n := by simpa using hpx
            simp only [bne_iff_ne, ne_eq, decide_eq_true_eq]
            intro hxe
            have hxeq : x = r := eq_of_key_pairwise RatingRec.id h.rat_ids hx hrmem hxe
            exact hne (by rw [← hxn, hxeq, hrtool])
          rw [hrows]
          exact hstv
        · exact Or.inr ⟨h2, h3⟩

theorem inv_get_rating_stats (s : St) (tid : Nat) (h : Inv s) :
    Inv (stepSt s (.get_rating_stats tid)) := by
  show Inv (get_rating_stats s tid).2
  unfold get_rating_stats
  split
  · exact h
  · split
    · exact h
    · next st hpay =>
      refine ⟨h.twofa, h.tool_ids, h.tool_lt, h.rat_ids, h.rat_lt, h.rat_range,
        h.rat_fk, h.rat_one, ?_⟩
      intro n v hv
      rw [cacheGet_cacheSet] at hv
      by_cases he : ratingStatsKey n = ratingStatsKey tid
      · have hn : n = tid := ratingStatsKey_inj he
        rw [if_pos he] at hv
        subst hn
        exact Or.inl ⟨st, hpay, (Option.some.inj hv).symm⟩
      · rw [if_neg he] at hv
        exact h.coher n v hv

/-- The invariant is preserved by every request. -/
theorem inv_step (s : St) (op : Op) (h : Inv s) : Inv (stepSt s op) := by
  cases op with
  | register a b c => exact inv_register s a b c h
  | login a b g ok => exact inv_login s a b g ok h
  | verify_2fa uid code => exact inv_verify_2fa s uid code h
  | setup_telegram uid chat ok => exact inv_setup_telegram s uid chat ok h
  | disable_2fa uid => exact inv_disable_2fa s uid h
  | change_password uid a b => exact inv_change_password s uid a b h
  | create_tool uid nm ds ct ur => exact inv_create_tool s uid nm ds ct ur h
  | get_tools cat st skip limit => exact inv_get_tools s cat st skip limit h
  | get_tools_stats => exact inv_get_tools_stats s h
  | get_tool tid => exact inv_get_tool s tid h
  | update_tool uid tid nm ds ct ur => exact inv_update_tool s uid tid nm ds ct ur h
  | delete_tool uid tid => exact inv_delete_tool s uid tid h
  | approve_tool uid tid ap rs => exact inv_approve_tool s uid tid ap rs h
  | update_user_role uid tid r => exact inv_update_user_role s uid tid r h
  | get_admin_stats uid => exact inv_get_admin_stats s uid h
  | rate_tool uid tid rating => exact inv_rate_tool s uid tid rating h
  | get_my_rating uid tid => exact inv_get_my_rating s uid tid h
  | get_rating_stats tid => exact inv_get_rating_stats s tid h
  | delete_rating uid tid => exact inv_delete_rating s uid tid h
  | create_comment uid tid content => exact inv_create_comment s uid tid content h
  | get_tool_comments tid skip limit => exact inv_get_tool_comments s tid skip limit h
  | update_comment uid tid cid content => exact inv_update_comment s uid tid cid content h
  | delete_comment uid tid cid => exact inv_delete_comment s uid tid cid h
  | vote_on_comment uid tid cid vote => exact inv_vote_on_comment s uid tid cid vote h
  | remove_vote uid tid cid => exact inv_remove_vote s uid tid cid h
  | cache_expire k => exact inv_cache_expire s k h

/-- A well-formed starting state satisfies the invariant; the cache
coherence is vacuous on an empty cache. -/
theorem inv_of_initOK {s : St} (h : InitOK s) : Inv s := by
  refine ⟨h.twofa, h.tool_ids, h.tool_lt, h.rat_ids, h.rat_lt, h.rat_range, h.rat_fk,
    h.rat_one, ?_⟩
  intro n v hv
  rw [h.cache_nil] at hv
  simp [cacheGet] at hv

/-- Every reachable state satisfies the invariant. -/
theorem reachable_inv {s : St} (h : Reachable s) : Inv s := by
  induction h with
  | base s hi => exact inv_of_initOK hi
  | step s op _ ih => exact inv_step s op ih

theorem isEmpty_false_of_ne {c : String} (h : c ≠ "") : c.isEmpty = false := by
  cases he : c.isEmpty
  · rfl
  · exact absurd ((String.isEmpty_iff c).mp he) h

/-- C9: for every authenticated user and every request payload, create_tool
stores the new tool with status pending: the ToolCreate schema carries no
status field, so no caller-supplied value can make the created row approved
or rejected. -/
theorem C9_create_tool_always_pending (s : St) (uid : Nat) (nm ds : String)
    (ct : ToolCategory) (ur : Option String) (u : UserRec)
    (hu : findUser s uid = some u) :
    ∃ nt : ToolRec,
      (run s (.create_tool uid nm ds ct ur)).1 = .ok (.tool nt) ∧
      nt.status = .pending ∧
      (stepSt s (.create_tool uid nm ds ct ur)).tools = s.tools ++ [nt] := by
  show ∃ nt, (create_tool s uid nm ds ct ur).1 = .ok (.tool nt) ∧ nt.status = .pending ∧
    (create_tool s uid nm ds ct ur).2.tools = s.tools ++ [nt]
  unfold create_tool
  rw [hu]
  exact ⟨_, rfl, rfl, rfl⟩

/-- C9 witness: a concrete creation on the sample state yields a pending
tool. -/
theorem C9_witness :
    ∃ nt : ToolRec,
      (run s0 (.create_tool 2 "NewTool" "another described tool" .design none)).1
        = .ok (.tool nt) ∧
      nt.status = .pending ∧
      (stepSt s0 (.create_tool 2 "NewTool" "another described tool" .design none)).tools
        = s0.tools ++ [nt] :=
  C9_create_tool_always_pending s0 2 "NewTool" "another described tool" .design none uBob rfl

/-- C10: update_user_role answers 404 when the target user does not exist
and 400 "Cannot change your own role" when the target id is the acting
admin's own id; in both failure cases the state, and so every role, is
unchanged. -/
theorem C10_update_user_role_guards (s : St) (uid target_id : Nat) (r : Role)
    (cu : UserRec) (hu : findUser s uid = some cu) (hrole : cu.role = .admin) :
    (s.users.find? (fun x => x.id == target_id) = none →
      run s (.update_user_role uid target_id r) = (.error (.http 404 "User not found"), s)) ∧
    (target_id = uid →
      run s (.update_user_role uid target_id r)
        = (.error (.http 400 "Cannot change your own role"), s)) := by
  have hcuid : cu.id = uid := by simpa using List.find?_some hu
  constructor
  · intro hnone
    show update_user_role s uid target_id r = _
    unfold update_user_role
    rw [hu]
    dsimp only
    rw [hrole, hnone]
    rfl
  · intro htgt
    show update_user_role s uid target_id r = _
    unfold update_user_role
    rw [hu]
    dsimp only
    rw [hrole]
    have hu' : s.users.find? (fun x => x.id == target_id) = some cu := by
      rw [htgt]
      exact hu
    rw [hu']
    dsimp only
    rw [show (cu.id == cu.id) = true from by simp]
    rfl

/-- C10 witness: both guards at concrete inputs on the sample state. -/
theorem C10_witness :
    run s0 (.update_user_role 1 99 .moderator) = (.error (.http 404 "User not found"), s0) ∧
    run s0 (.update_user_role 1 1 .user)
      = (.error (.http 400 "Cannot change your own role"), s0) :=
  ⟨(C10_update_user_role_guards s0 1 99 .moderator uAdmin rfl rfl).1 rfl,
   (C10_update_user_role_guards s0 1 1 .user uAdmin rfl rfl).2 rfl⟩

/-- C7: approve_tool, gated to moderator or admin, sets an existing tool to
approved and clears the rejection reason (approved true), or to rejected
with the supplied reason (approved false), records the acting user in
approved_by, and leaves name, description, category, url and creator
unchanged; a missing tool gives 404 and no change; a plain user gets 403
and no change. -/
theorem C7_approve_tool :
    (∀ (s : St) (uid tid : Nat) (ap : Bool) (rs : Option String) (u : UserRec) (t : ToolRec),
      findUser s uid = some u → (u.role = .moderator ∨ u.role = .admin) →
      findTool s tid = some t →
      ∃ t' : ToolRec,
        (run s (.approve_tool uid tid ap rs)).1 = .ok (.tool t') ∧
        (stepSt s (.approve_tool uid tid ap rs)).tools
          = s.tools.map (fun x => if x.id == tid then t' else x) ∧
        t'.name = t.name ∧ t'.description = t.description ∧ t'.category = t.category ∧
        t'.url = t.url ∧ t'.created_by = t.created_by ∧ t'.approved_by = some u.id ∧
        (ap = true → t'.status = .approved ∧ t'.rejection_reason = none) ∧
        (ap = false → t'.status = .rejected ∧ t'.rejection_reason = rs)) ∧
    (∀ (s : St) (uid tid : Nat) (ap : Bool) (rs : Option String) (u : UserRec),
      findUser s uid = some u → (u.role = .moderator ∨ u.role = .admin) →
      findTool s tid = none →
      run s (.approve_tool uid tid ap rs) = (.error (.http 404 "Tool not found"), s)) ∧
    (∀ (s : St) (uid tid : Nat) (ap : Bool) (rs : Option String) (u : UserRec),
      findUser s uid = some u → u.role = .user →
      run s (.approve_tool uid tid ap rs)
        = (.error (.http 403 "Moderator access required"), s)) := by
  refine ⟨?_, ?_, ?_⟩
  · intro s uid tid ap rs u t hu hrole ht
    have hgate : (u.role == Role.moderator || u.role == Role.admin) = true := by
      rcases hrole with h | h <;> rw [h] <;> decide
    show ∃ t', (approve_tool s uid tid ap rs).1 = .ok (.tool t') ∧
      (approve_tool s uid tid ap rs).2.tools = _ ∧ _
    unfold approve_tool
    rw [hu]
    dsimp only
    rw [hgate, ht]
    cases ap
    · refine ⟨_, rfl, rfl, rfl, rfl, rfl, rfl, rfl, rfl, ?_, ?_⟩
      · intro hc
        cases hc
      · intro _
        exact ⟨rfl, rfl⟩
    · refine ⟨_, rfl, rfl, rfl, rfl, rfl, rfl, rfl, rfl, ?_, ?_⟩
      · intro _
        exact ⟨rfl, rfl⟩
      · intro hc
        cases hc
  · intro s uid tid ap rs u hu hrole ht
    have hgate : (u.role == Role.moderator || u.role == Role.admin) = true := by
      rcases hrole with h | h <;> rw [h] <;> decide
    show approve_tool s uid tid ap rs = _
    unfold approve_tool
    rw [hu]
    dsimp only
    rw [hgate, ht]
    rfl
  · intro s uid tid ap rs u hu hrole
    show approve_tool s uid tid ap rs = _
    unfold approve_tool
    rw [hu]
    dsimp only
    rw [hrole]
    rfl

/-- C7 witness: a concrete rejection on the sample state by the admin. -/
theorem C7_witness :
    ∃ t' : ToolRec,
      (run s0 (.approve_tool 1 1 false (some "too sparse"))).1 = .ok (.tool t') ∧
      (stepSt s0 (.approve_tool 1 1 false (some "too sparse"))).tools
        = s0.tools.map (fun x => if x.id == 1 then t' else x) ∧
      t'.name = tSample.name ∧ t'.description = tSample.description ∧
      t'.category = tSample.category ∧ t'.url = tSample.url ∧
      t'.created_by = tSample.created_by ∧ t'.approved_by = some uAdmin.id ∧
      (false = true → t'.status = .approved ∧ t'.rejection_reason = none) ∧
      (false = false → t'.status = .rejected ∧ t'.rejection_reason = some "too sparse") :=
  C7_approve_tool.1 s0 1 1 false (some "too sparse") uAdmin tSample rfl (Or.inr rfl) rfl

/-- C3: the vote handler reads vote_data.vote_type while the
CommentVoteCreate schema defines the single field vote, so every vote
request on an existing comment raises AttributeError (an HTTP 500) with the
transaction rolled back: no vote row is written and no counter changes. -/
theorem C3_vote_on_comment_attr_crash (s : St) (uid tid cid : Nat) (vote : String)
    (u : UserRec) (c : CommentRec) (hu : findUser s uid = some u)
    (hc : s.comments.find? (fun c => c.id == cid && c.tool_id == tid) = some c) :
    run s (.vote_on_comment uid tid cid vote) = (.error (.attrError "vote_type"), s) := by
  show vote_on_comment s uid tid cid [("vote", vote)] = _
  unfold vote_on_comment
  rw [hu, hc]
  rfl

/-- C3 witness: the concrete crash on the sample state. -/
theorem C3_witness :
    run s0 (.vote_on_comment 1 1 1 "up") = (.error (.attrError "vote_type"), s0) :=
  C3_vote_on_comment_attr_crash s0 1 1 1 "up" uAdmin cmSample rfl rfl

/-- C1: with a pending (nonempty) 2FA code cached under 2fa of the user id,
verify_2fa issues a full token exactly when the submitted code equals the
cached one; on a match the cache entry is deleted, so an immediate replay
of the same code fails with 400; a mismatch fails with 401 "Invalid 2FA
code" leaving the state unchanged; with no cached entry it fails with 400
"2FA code expired or not found" leaving the state unchanged. -/
theorem C1_verify_2fa :
    (∀ (s : St) (uid : Nat) (u : UserRec) (c : String),
      findUser s uid = some u →
      cacheGet s.cache (twoFaKey u.id) = some (.str c) → c ≠ "" →
      ((∀ code, (∃ tok, (run s (.verify_2fa uid code)).1 = .ok (.token tok)) ↔ code = c) ∧
       (run s (.verify_2fa uid c)).1 = .ok (.token ⟨u.username, false, none, false⟩) ∧
       cacheGet (stepSt s (.verify_2fa uid c)).cache (twoFaKey u.id) = none ∧
       (run (stepSt s (.verify_2fa uid c)) (.verify_2fa uid c)).1
         = .error (.http 400 "2FA code expired or not found") ∧
       (∀ code, code ≠ c →
         run s (.verify_2fa uid code) = (.error (.http 401 "Invalid 2FA code"), s)))) ∧
    (∀ (s : St) (uid : Nat) (u : UserRec) (code : String),
      findUser s uid = some u → cacheGet s.cache (twoFaKey u.id) = none →
      run s (.verify_2fa uid code)
        = (.error (.http 400 "2FA code expired or not found"), s)) := by
  constructor
  · intro s uid u c hu hget hc0
    have hemp : c.isEmpty = false := isEmpty_false_of_ne hc0
    have hfalsy : (CacheVal.str c).falsy = false := by simp [CacheVal.falsy, hemp]
    have hrun : verify_2fa s uid c =
        (.ok (.token ⟨u.username, false, none, false⟩),
         logAction { s with cache := cacheDelete s.cache (twoFaKey u.id) }
           u.id "2fa_verified" "user" u.id) := by
      unfold verify_2fa
      rw [hu]
      dsimp only
      rw [hget]
      dsimp only
      rw [hfalsy]
      rw [show ((CacheVal.str c).eqStr c) = true from by simp [CacheVal.eqStr]]
      rfl
    have hrunNe : ∀ code, code ≠ c →
        verify_2fa s uid code = (.error (.http 401 "Invalid 2FA code"), s) := by
      intro code hne
      unfold verify_2fa
      rw [hu]
      dsimp only
      rw [hget]
      dsimp only
      rw [hfalsy]
      rw [show ((CacheVal.str c).eqStr code) = false from by
        simp only [CacheVal.eqStr, beq_eq_false_iff_ne, ne_eq]
        exact fun e => hne e.symm]
      rfl
    have hdel : cacheGet (stepSt s (.verify_2fa uid c)).cache (twoFaKey u.id) = none := by
      show cacheGet (verify_2fa s uid c).2.cache (twoFaKey u.id) = none
      rw [hrun]
      show cacheGet (cacheDelete s.cache (twoFaKey u.id)) (twoFaKey u.id) = none
      rw [cacheGet_cacheDelete, if_pos rfl]
    refine ⟨?_, ?_, hdel, ?_, fun code hne => hrunNe code hne⟩
    · intro code
      constructor
      · rintro ⟨tok, htok⟩
        by_cases he : code = c
        · exact he
        · rw [show (run s (.verify_2fa uid code)).1 = (verify_2fa s uid code).1 from rfl,
            hrunNe code he] at htok
          cases htok
      · rintro rfl
        exact ⟨⟨u.username, false, none, false⟩, by
          show (verify_2fa s uid code).1 = _
          rw [hrun]⟩
    · show (verify_2fa s uid c).1 = _
      rw [hrun]
    · show (run (stepSt s (.verify_2fa uid c)) (.verify_2fa uid c)).1 = _
      have hu2 : findUser (stepSt s (.verify_2fa uid c)) uid = some u := by
        show findUser (verify_2fa s uid c).2 uid = some u
        rw [hrun]
        exact hu
      show (verify_2fa (stepSt s (.verify_2fa uid c)) uid c).1 = _
      unfold verify_2fa
      rw [hu2]
      dsimp only
      rw [hdel]
  · intro s uid u code hu hget
    show verify_2fa s uid code = _
    unfold verify_2fa
    rw [hu]
    dsimp only
    rw [hget]

/-- C1 witness: the concrete 2FA verification round on the sample state
with the cached code 123456. -/
theorem C1_witness :
    (run s0code (.verify_2fa 2 "123456")).1
      = .ok (.token ⟨"bob", false, none, false⟩) ∧
    cacheGet (stepSt s0code (.verify_2fa 2 "123456")).cache (twoFaKey 2) = none ∧
    run s0code (.verify_2fa 2 "000000")
      = (.error (.http 401 "Invalid 2FA code"), s0code) :=
  ⟨(C1_verify_2fa.1 s0code 2 uBob "123456" rfl rfl (by decide)).2.1,
   (C1_verify_2fa.1 s0code 2 uBob "123456" rfl rfl (by decide)).2.2.1,
   (C1_verify_2fa.1 s0code 2 uBob "123456" rfl rfl (by decide)).2.2.2.2 "000000" (by decide)⟩

theorem initOK_s0 : InitOK s0 :=
  ⟨rfl, rfl, rfl, by decide, by decide, by decide, by decide, by decide, by decide,
   by decide, by decide, by decide, by decide⟩

theorem reachable_s0 : Reachable s0 := Reachable.base s0 initOK_s0

/-- C2: in any reachable state, a login with the correct password of a user
whose 2FA is enabled generates no full token: the cache receives the
generated code under 2fa of the user id with a 300 second expiry, the code
is dispatched to the Telegram chat of the user, and the response is a
pending token with requires_2fa set and a five minute expiry; a wrong
password or an unknown username fails with 401 and changes nothing. -/
theorem C2_login :
    (∀ (s : St) (uname pw gen : String) (u : UserRec),
      Reachable s →
      s.users.find? (fun x => x.username == uname) = some u →
      u.is_2fa_enabled = true →
      verifyPassword pw u.hashed_password = true →
      ∃ chat, u.telegram_id = some chat ∧ chat ≠ "" ∧
        (run s (.login uname pw gen true)).1 = .ok (.token ⟨u.username, true, some 5, true⟩) ∧
        cacheFind (stepSt s (.login uname pw gen true)).cache (twoFaKey u.id)
          = some ⟨twoFaKey u.id, .str gen, 300⟩ ∧
        (stepSt s (.login uname pw gen true)).sent = s.sent ++ [(chat, gen)]) ∧
    (∀ (s : St) (uname pw gen : String) (ok : Bool) (u : UserRec),
      s.users.find? (fun x => x.username == uname) = some u →
      verifyPassword pw u.hashed_password = false →
      run s (.login uname pw gen ok)
        = (.error (.http 401 "Incorrect username or password"), s)) ∧
    (∀ (s : St) (uname pw gen : String) (ok : Bool),
      s.users.find? (fun x => x.username == uname) = none →
      run s (.login uname pw gen ok)
        = (.error (.http 401 "Incorrect username or password"), s)) := by
  refine ⟨?_, ?_, ?_⟩
  · intro s uname pw gen u hR hfind h2fa hpw
    have hInv := reachable_inv hR
    have hmem : u ∈ s.users := List.mem_of_find?_eq_some hfind
    have htruthy := hInv.twofa u hmem h2fa
    rcases hchat : u.telegram_id with _ | chat
    · rw [hchat] at htruthy
      cases htruthy
    · have hchatne : chat.isEmpty = false := by
        rw [hchat] at htruthy
        simpa [truthyOptStr] using htruthy
      have hrun : login s uname pw gen true =
          (.ok (.token ⟨u.username, true, some 5, true⟩),
           { s with cache := cacheSet s.cache (twoFaKey u.id) (.str gen) 300,
                    sent := s.sent ++ [(chat, gen)] }) := by
        unfold login
        rw [hfind]
        dsimp only
        rw [hpw, h2fa, hchat]
        rw [show truthyOptStr (some chat) = true from by simp [truthyOptStr, hchatne]]
        rfl
      refine ⟨chat, rfl, ?_, ?_, ?_, ?_⟩
      · intro he
        rw [he] at hchatne
        exact absurd hchatne (by decide)
      · show (login s uname pw gen true).1 = _
        rw [hrun]
      · show cacheFind (login s uname pw gen true).2.cache (twoFaKey u.id) = _
        rw [hrun]
        show cacheFind (cacheSet s.cache (twoFaKey u.id) (.str gen) 300) (twoFaKey u.id) = _
        rw [cacheFind_cacheSet, if_pos rfl]
      · show (login s uname pw gen true).2.sent = _
        rw [hrun]
  · intro s uname pw gen ok u hfind hpw
    show login s uname pw gen ok = _
    unfold login
    rw [hfind]
    dsimp only
    rw [hpw]
    rfl
  · intro s uname pw gen ok hnone
    show login s uname pw gen ok = _
    unfold login
    rw [hnone]

/-- C2 witness: the concrete 2FA login on the sample state. -/
theorem C2_witness :
    ∃ chat, uBob.telegram_id = some chat ∧ chat ≠ "" ∧
      (run s0 (.login "bob" "pw2" "654321" true)).1
        = .ok (.token ⟨uBob.username, true, some 5, true⟩) ∧
      cacheFind (stepSt s0 (.login "bob" "pw2" "654321" true)).cache (twoFaKey uBob.id)
        = some ⟨twoFaKey uBob.id, .str "654321", 300⟩ ∧
      (stepSt s0 (.login "bob" "pw2" "654321" true)).sent = s0.sent ++ [(chat, "654321")] :=
  C2_login.1 s0 "bob" "pw2" "654321" uBob reachable_s0 rfl rfl rfl

/-- C4: in every reachable state there is at most one rating row per user
and tool; rate_tool with a value of 1 to 5 overwrites the existing row in
place (row count unchanged) or appends exactly one new row; rating a
missing tool fails with 404 and changes nothing; values outside 1 to 5 are
rejected by the schema validation and change nothing. -/
theorem C4_rate_tool :
    (∀ s, Reachable s →
      s.ratings.Pairwise (fun a b => ¬ (a.tool_id = b.tool_id ∧ a.user_id = b.user_id))) ∧
    (∀ (s : St) (uid tid : Nat) (r : Int) (u : UserRec) (t : ToolRec) (ex : RatingRec),
      findUser s uid = some u → findTool s tid = some t → 1 ≤ r → r ≤ 5 →
      s.ratings.find? (fun x => x.tool_id == tid && x.user_id == u.id) = some ex →
      (run s (.rate_tool uid tid r)).1 = .ok (.ratingOut { ex with rating := r }) ∧
      (stepSt s (.rate_tool uid tid r)).ratings
        = s.ratings.map (fun x => if x.id == ex.id then { ex with rating := r } else x) ∧
      (stepSt s (.rate_tool uid tid r)).ratings.length = s.ratings.length) ∧
    (∀ (s : St) (uid tid : Nat) (r : Int) (u : UserRec) (t : ToolRec),
      findUser s uid = some u → findTool s tid = some t → 1 ≤ r → r ≤ 5 →
      s.ratings.find? (fun x => x.tool_id == tid && x.user_id == u.id) = none →
      (run s (.rate_tool uid tid r)).1 = .ok (.ratingOut ⟨s.next_rating_id, tid, u.id, r⟩) ∧
      (stepSt s (.rate_tool uid tid r)).ratings
        = s.ratings ++ [⟨s.next_rating_id, tid, u.id, r⟩]) ∧
    (∀ (s : St) (uid tid : Nat) (r : Int) (u : UserRec),
      findUser s uid = some u → findTool s tid = none → 1 ≤ r → r ≤ 5 →
      run s (.rate_tool uid tid r) = (.error (.http 404 "Tool not found"), s)) ∧
    (∀ (s : St) (uid tid : Nat) (r : Int),
      (r < 1 ∨ 5 < r) →
      run s (.rate_tool uid tid r)
        = (.error (.http 422 "Input should be between 1 and 5"), s)) := by
  refine ⟨?_, ?_, ?_, ?_, ?_⟩
  · intro s hR
    exact (reachable_inv hR).rat_one
  · intro s uid tid r u t ex hu ht h1 h5 hex
    have hrun : rate_tool s uid tid r =
        (.ok (.ratingOut { ex with rating := r }),
         { s with
            ratings := s.ratings.map (fun x => if x.id == ex.id then { ex with rating := r } else x),
            cache := clearPat (cacheDelete s.cache (ratingStatsKey tid)) "tools:",
            audit := s.audit ++ [⟨u.id, "update_rating", "tool_rating", ex.id, s.audit.length⟩] }) := by
      unfold rate_tool
      rw [if_neg (by omega)]
      rw [hu]
      dsimp only
      rw [ht]
      dsimp only
      rw [hex]
      rfl
    refine ⟨?_, ?_, ?_⟩
    · show (rate_tool s uid tid r).1 = _
      rw [hrun]
    · show (rate_tool s uid tid r).2.ratings = _
      rw [hrun]
    · show (rate_tool s uid tid r).2.ratings.length = _
      rw [hrun]
      exact List.length_map _ _
  · intro s uid tid r u t hu ht h1 h5 hex
    have hrun : rate_tool s uid tid r =
        (.ok (.ratingOut ⟨s.next_rating_id, tid, u.id, r⟩),
         { s with
            ratings := s.ratings ++ [⟨s.next_rating_id, tid, u.id, r⟩],
            next_rating_id := s.next_rating_id + 1,
            cache := clearPat (cacheDelete s.cache (ratingStatsKey tid)) "tools:",
            audit := s.audit ++
              [⟨u.id, "create_rating", "tool_rating", s.next_rating_id, s.audit.length⟩] }) := by
      unfold rate_tool
      rw [if_neg (by omega)]
      rw [hu]
      dsimp only
      rw [ht]
      dsimp only
      rw [hex]
      rfl
    exact ⟨by show (rate_tool s uid tid r).1 = _; rw [hrun],
      by show (rate_tool s uid tid r).2.ratings = _; rw [hrun]⟩
  · intro s uid tid r u hu ht h1 h5
    show rate_tool s uid tid r = _
    unfold rate_tool
    rw [if_neg (by omega)]
    rw [hu]
    dsimp only
    rw [ht]
  · intro s uid tid r hr
    show rate_tool s uid tid r = _
    unfold rate_tool
    rw [if_pos hr]

/-- C4 witness: overwriting the sample rating and the 404 and validation
guards at concrete inputs. -/
theorem C4_witness :
    s0.ratings.Pairwise (fun a b => ¬ (a.tool_id = b.tool_id ∧ a.user_id = b.user_id)) ∧
    ((run s0 (.rate_tool 1 1 2)).1 = .ok (.ratingOut { rSample with rating := 2 }) ∧
      (stepSt s0 (.rate_tool 1 1 2)).ratings
        = s0.ratings.map (fun x => if x.id == rSample.id then { rSample with rating := 2 } else x) ∧
      (stepSt s0 (.rate_tool 1 1 2)).ratings.length = s0.ratings.length) ∧
    run s0 (.rate_tool 1 7 3) = (.error (.http 404 "Tool not found"), s0) ∧
    run s0 (.rate_tool 1 1 9) = (.error (.http 422 "Input should be between 1 and 5"), s0) :=
  ⟨C4_rate_tool.1 s0 reachable_s0,
   C4_rate_tool.2.1 s0 1 1 2 uAdmin tSample rSample rfl rfl (by decide) (by decide) rfl,
   C4_rate_tool.2.2.2.1 s0 1 7 3 uAdmin rfl rfl (by decide) (by decide),
   C4_rate_tool.2.2.2.2 s0 1 1 9 (by omega)⟩

theorem cacheHit_some {c : List CEntry} {k : String} {v : CacheVal}
    (h : cacheHit c k = some v) : cacheGet c k = some v ∧ v.falsy = false := by
  unfold cacheHit at h
  rcases hg : cacheGet c k with _ | w
  · rw [hg] at h
    cases h
  · rw [hg] at h
    dsimp only at h
    by_cases hf : w.falsy = true
    · rw [if_pos hf] at h
      cases h
    · rw [if_neg hf] at h
      have hw := Option.some.inj h
      subst hw
      exact ⟨rfl, by simpa using hf⟩

/-- C5: in every reachable state, get_rating_stats on an existing tool
returns (fresh or from the coherent cache) the statistics of the current
rating rows: the total is the row count, the average is the sum of the
values divided by the count rounded to two decimals (0.0 with no rows, the
whole payload zero then), and the distribution counts the rows of each
value 1 to 5; and on any tool id the endpoint never fails. -/
theorem C5_get_rating_stats :
    (∀ s, Reachable s → ∀ t ∈ s.tools,
      ∃ st : RatingStatsVal,
        statsView (run s (.get_rating_stats t.id)).1 = some st ∧
        st.total_ratings = (ratingRowsOf s t.id).length ∧
        st.average_rating = (if (ratingRowsOf s t.id).isEmpty then 0
          else pyRound2 (((ratingRowsOf s t.id).map (fun r => (r.rating : ℚ))).sum
            / ((ratingRowsOf s t.id).length : ℚ))) ∧
        st.d1 = ((ratingRowsOf s t.id).filter (fun r => r.rating == 1)).length ∧
        st.d2 = ((ratingRowsOf s t.id).filter (fun r => r.rating == 2)).length ∧
        st.d3 = ((ratingRowsOf s t.id).filter (fun r => r.rating == 3)).length ∧
        st.d4 = ((ratingRowsOf s t.id).filter (fun r => r.rating == 4)).length ∧
        st.d5 = ((ratingRowsOf s t.id).filter (fun r => r.rating == 5)).length ∧
        ((ratingRowsOf s t.id).isEmpty = true → st = ⟨0, 0, 0, 0, 0, 0, 0⟩)) ∧
    (∀ s, Reachable s → ∀ n, ∃ rsp, (run s (.get_rating_stats n)).1 = .ok rsp) := by
  have hrows : ∀ s, Inv s → ∀ n, ∀ r ∈ ratingRowsOf s n, 1 ≤ r.rating ∧ r.rating ≤ 5 :=
    fun s hInv n r hr => hInv.rat_range r (List.mem_of_mem_filter hr)
  constructor
  · intro s hR t ht
    have hInv := reachable_inv hR
    rcases statsPayload_spec (ratingRowsOf s t.id) (hrows s hInv t.id) with ⟨st, hpay, hprops⟩
    refine ⟨st, ?_, hprops⟩
    show statsView (get_rating_stats s t.id).1 = some st
    unfold get_rating_stats
    rcases hhit : cacheHit s.cache (ratingStatsKey t.id) with _ | v
    · dsimp only
      rw [hpay]
      rfl
    · rcases cacheHit_some hhit with ⟨hget, _⟩
      rcases hInv.coher t.id v hget with ⟨stv, hstv, hveq⟩ | ⟨hnot, _⟩
      · rw [hveq]
        have hsv : stv = st := by
          rw [hstv] at hpay
          exact Option.some.inj hpay
        rw [hsv]
        rfl
      · exact absurd rfl (hnot t ht)
  · intro s hR n
    have hInv := reachable_inv hR
    show ∃ rsp, (get_rating_stats s n).1 = .ok rsp
    unfold get_rating_stats
    rcases hhit : cacheHit s.cache (ratingStatsKey n) with _ | v
    · rcases statsPayload_spec (ratingRowsOf s n) (hrows s hInv n) with ⟨st, hpay, _⟩
      dsimp only
      rw [hpay]
      exact ⟨.stats st, rfl⟩
    · exact ⟨.cachedVal v, rfl⟩

/-- C5 witness: the statistics of the sample tool (one rating of value 4),
and the no-failure clause at an absent tool id. -/
theorem C5_witness :
    (∃ st : RatingStatsVal,
      statsView (run s0 (.get_rating_stats tSample.id)).1 = some st ∧
      st.total_ratings = (ratingRowsOf s0 tSample.id).length ∧
      st.average_rating = (if (ratingRowsOf s0 tSample.id).isEmpty then 0
        else pyRound2 (((ratingRowsOf s0 tSample.id).map (fun r => (r.rating : ℚ))).sum
          / ((ratingRowsOf s0 tSample.id).length : ℚ))) ∧
      st.d1 = ((ratingRowsOf s0 tSample.id).filter (fun r => r.rating == 1)).length ∧
      st.d2 = ((ratingRowsOf s0 tSample.id).filter (fun r => r.rating == 2)).length ∧
      st.d3 = ((ratingRowsOf s0 tSample.id).filter (fun r => r.rating == 3)).length ∧
      st.d4 = ((ratingRowsOf s0 tSample.id).filter (fun r => r.rating == 4)).length ∧
      st.d5 = ((ratingRowsOf s0 tSample.id).filter (fun r => r.rating == 5)).length ∧
      ((ratingRowsOf s0 tSample.id).isEmpty = true → st = ⟨0, 0, 0, 0, 0, 0, 0⟩)) ∧
    (∃ rsp, (run s0 (.get_rating_stats 42)).1 = .ok rsp) :=
  ⟨C5_get_rating_stats.1 s0 reachable_s0 tSample (by decide),
   C5_get_rating_stats.2 s0 reachable_s0 42⟩

theorem strHasPref_false_of_head {p s : String} {a b : Char}
    (hp : p.data.head? = some a) (hs : s.data.head? = some b) (hab : a ≠ b) :
    strHasPref p s = false := by
  unfold strHasPref
  rcases hpd : p.data with _ | ⟨c, l⟩
  · rw [hpd] at hp
    cases hp
  · rcases hsd : s.data with _ | ⟨d, l2⟩
    · rw [hsd] at hs
      cases hs
    · rw [hpd] at hp
      rw [hsd] at hs
      have hca : c = a := by simpa using hp
      have hdb : d = b := by simpa using hs
      show (c == d && listPref l l2) = false
      rw [show (c == d) = false from by
        rw [hca, hdb]
        simpa using hab]
      rfl

theorem commentsPat_head (tid : Nat) : (commentsPat tid).data.head? = some 'c' :=
  headq_append _ _ _ (headq_append _ _ _ rfl)

theorem tools_pref_rsk (n : Nat) : strHasPref "tools:" (ratingStatsKey n) = false :=
  strHasPref_false_of_head rfl (ratingStatsKey_head n) (by decide)

theorem tools_pref_admin : strHasPref "tools:" adminStatsKey = false := by decide

theorem comments_pref_admin (tid : Nat) :
    strHasPref (commentsPat tid) adminStatsKey = false :=
  strHasPref_false_of_head (commentsPat_head tid) rfl (by decide)

theorem admin_ne_twoFaKey (n : Nat) : adminStatsKey ≠ twoFaKey n :=
  data_ne_of_head rfl (twoFaKey_head n) (by decide)

/-- C6 counterexample: on the sample state, read the admin statistics
overview (caching it), then change the role of user 2 to moderator; the
cached overview entry survives the mutation untouched and the next read
returns the stale statistics, which report zero moderators although the
database now holds one, with no expiry in between. -/
theorem C6_counterexample :
    (stepSt (stepSt s0 (.get_admin_stats 1)) (.update_user_role 1 2 .moderator)).cache
      = (stepSt s0 (.get_admin_stats 1)).cache ∧
    ((stepSt (stepSt s0 (.get_admin_stats 1)) (.update_user_role 1 2 .moderator)).users.filter
      (fun u => u.role == .moderator)).length = 1 ∧
    (run (stepSt (stepSt s0 (.get_admin_stats 1)) (.update_user_role 1 2 .moderator))
        (.get_admin_stats 1)).1
      = .ok (.cachedVal (.adminStats (adminStatsOf s0))) ∧
    (adminStatsOf s0).role_moderator = 0 ∧
    (adminStatsOf (stepSt (stepSt s0 (.get_admin_stats 1))
      (.update_user_role 1 2 .moderator))).role_moderator = 1 := by
  refine ⟨?_, ?_, ?_, ?_, ?_⟩ <;> rfl

/-- C6 amended: the caching read endpoints (tool listing, rating
statistics, admin overview, comment pages) are read-through on their
filter-parameter keys with a fixed 300 second expiry, and a cache hit
leaves the state unchanged; rating creation, update and deletion delete
the rating-stats key of the tool and clear every tools-prefixed key, tool
creation, update, deletion and approval clear every tools-prefixed key,
and comment deletion clears the comment pages of its tool; but role
changes, 2FA setup and disable, and password changes invalidate nothing,
and no mutation handler ever touches the admin:stats:overview entry
(registration, comment creation and update, and comment voting leave the
whole cache unchanged; login and 2FA verification touch only the user's
2FA-code key; vote removal clears only comment pages; the rest is covered
above), so its cached value can serve stale statistics until expiry. -/
theorem C6_amended :
    (∀ (s : St) (cat : Option ToolCategory) (stf : Option ToolStatus) (skip limit : Nat),
      cacheHit s.cache (toolsListKey cat stf skip limit) = none →
      cacheFind (stepSt s (.get_tools cat stf skip limit)).cache
          (toolsListKey cat stf skip limit)
        = some ⟨toolsListKey cat stf skip limit,
            .toolsList (toolsQuery s cat stf skip limit), 300⟩) ∧
    (∀ (s : St) (cat : Option ToolCategory) (stf : Option ToolStatus) (skip limit : Nat)
      (v : CacheVal),
      cacheHit s.cache (toolsListKey cat stf skip limit) = some v →
      stepSt s (.get_tools cat stf skip limit) = s) ∧
    (∀ (s : St) (tid : Nat) (st : RatingStatsVal),
      cacheHit s.cache (ratingStatsKey tid) = none →
      statsPayload (ratingRowsOf s tid) = some st →
      cacheFind (stepSt s (.get_rating_stats tid)).cache (ratingStatsKey tid)
        = some ⟨ratingStatsKey tid, .ratingStats st, 300⟩) ∧
    (∀ (s : St) (uid : Nat) (u : UserRec),
      findUser s uid = some u → (u.role = .moderator ∨ u.role = .admin) →
      cacheHit s.cache adminStatsKey = none →
      cacheFind (stepSt s (.get_admin_stats uid)).cache adminStatsKey
        = some ⟨adminStatsKey, .adminStats (adminStatsOf s), 300⟩) ∧
    (∀ (s : St) (uid tid : Nat) (r : Int) (u : UserRec) (t : ToolRec),
      findUser s uid = some u → findTool s tid = some t → 1 ≤ r → r ≤ 5 →
      cacheGet (stepSt s (.rate_tool uid tid r)).cache (ratingStatsKey tid) = none ∧
      (∀ k, strHasPref "tools:" k = true →
        cacheGet (stepSt s (.rate_tool uid tid r)).cache k = none) ∧
      cacheFind (stepSt s (.rate_tool uid tid r)).cache adminStatsKey
        = cacheFind s.cache adminStatsKey) ∧
    (∀ (s : St) (uid tid : Nat) (ap : Bool) (rs : Option String) (u : UserRec) (t : ToolRec),
      findUser s uid = some u → (u.role = .moderator ∨ u.role = .admin) →
      findTool s tid = some t →
      (∀ k, strHasPref "tools:" k = true →
        cacheGet (stepSt s (.approve_tool uid tid ap rs)).cache k = none) ∧
      cacheFind (stepSt s (.approve_tool uid tid ap rs)).cache adminStatsKey
        = cacheFind s.cache adminStatsKey) ∧
    (∀ (s : St) (uid : Nat) (nm ds : String) (ct : ToolCategory) (ur : Option String)
      (u : UserRec),
      findUser s uid = some u →
      (∀ k, strHasPref "tools:" k = true →
        cacheGet (stepSt s (.create_tool uid nm ds ct ur)).cache k = none) ∧
      cacheFind (stepSt s (.create_tool uid nm ds ct ur)).cache adminStatsKey
        = cacheFind s.cache adminStatsKey) ∧
    (∀ (s : St) (uid tid : Nat) (r : Role),
      (stepSt s (.update_user_role uid tid r)).cache = s.cache) ∧
    (∀ (s : St) (uid : Nat) (chat : String) (ok : Bool),
      (stepSt s (.setup_telegram uid chat ok)).cache = s.cache) ∧
    (∀ (s : St) (uid : Nat), (stepSt s (.disable_2fa uid)).cache = s.cache) ∧
    (∀ (s : St) (uid : Nat) (a b : String),
      (stepSt s (.change_password uid a b)).cache = s.cache) ∧
    (∀ (s : St) (uid tid cid : Nat) (u : UserRec) (c : CommentRec),
      findUser s uid = some u →
      s.comments.find? (fun x => x.id == cid && x.tool_id == tid) = some c →
      c.user_id = u.id →
      (∀ k, strHasPref (commentsPat tid) k = true →
        cacheGet (stepSt s (.delete_comment uid tid cid)).cache k = none) ∧
      cacheFind (stepSt s (.delete_comment uid tid cid)).cache adminStatsKey
        = cacheFind s.cache adminStatsKey) ∧
    (∀ (s : St) (tid : Nat) (v : CacheVal),
      cacheHit s.cache (ratingStatsKey tid) = some v →
      stepSt s (.get_rating_stats tid) = s) ∧
    (∀ (s : St) (uid : Nat) (u : UserRec) (v : CacheVal),
      findUser s uid = some u → (u.role = .moderator ∨ u.role = .admin) →
      cacheHit s.cache adminStatsKey = some v →
      stepSt s (.get_admin_stats uid) = s) ∧
    (∀ (s : St) (tid skip limit : Nat),
      cacheHit s.cache (commentsKey tid skip limit) = none →
      cacheFind (stepSt s (.get_tool_comments tid skip limit)).cache
          (commentsKey tid skip limit)
        = some ⟨commentsKey tid skip limit,
            .commentsList ((((s.comments.filter (fun c => c.tool_id == tid)).drop skip).take
              limit).map (commentItemOf s)), 300⟩) ∧
    (∀ (s : St) (tid skip limit : Nat) (v : CacheVal),
      cacheHit s.cache (commentsKey tid skip limit) = some v →
      stepSt s (.get_tool_comments tid skip limit) = s) ∧
    (∀ (s : St) (uid tid : Nat) (nm ds : Option String) (ct : Option ToolCategory)
      (ur : Option (Option String)) (u : UserRec) (t : ToolRec),
      findUser s uid = some u → findTool s tid = some t →
      (t.created_by == some u.id) = true →
      (∀ k, strHasPref "tools:" k = true →
        cacheGet (stepSt s (.update_tool uid tid nm ds ct ur)).cache k = none) ∧
      cacheFind (stepSt s (.update_tool uid tid nm ds ct ur)).cache adminStatsKey
        = cacheFind s.cache adminStatsKey) ∧
    (∀ (s : St) (uid tid : Nat) (u : UserRec) (t : ToolRec),
      findUser s uid = some u → findTool s tid = some t →
      (t.created_by == some u.id) = true →
      (∀ k, strHasPref "tools:" k = true →
        cacheGet (stepSt s (.delete_tool uid tid)).cache k = none) ∧
      cacheFind (stepSt s (.delete_tool uid tid)).cache adminStatsKey
        = cacheFind s.cache adminStatsKey) ∧
    (∀ (s : St) (uid tid : Nat) (u : UserRec) (rr : RatingRec),
      findUser s uid = some u →
      s.ratings.find? (fun r => r.tool_id == tid && r.user_id == u.id) = some rr →
      cacheGet (stepSt s (.delete_rating uid tid)).cache (ratingStatsKey tid) = none ∧
      (∀ k, strHasPref "tools:" k = true →
        cacheGet (stepSt s (.delete_rating uid tid)).cache k = none) ∧
      cacheFind (stepSt s (.delete_rating uid tid)).cache adminStatsKey
        = cacheFind s.cache adminStatsKey) ∧
    (∀ (s : St) (a b c : String), (stepSt s (.register a b c)).cache = s.cache) ∧
    (∀ (s : St) (a pw gen : String) (ok : Bool),
      cacheFind (stepSt s (.login a pw gen ok)).cache adminStatsKey
        = cacheFind s.cache adminStatsKey) ∧
    (∀ (s : St) (uid : Nat) (code : String),
      cacheFind (stepSt s (.verify_2fa uid code)).cache adminStatsKey
        = cacheFind s.cache adminStatsKey) ∧
    (∀ (s : St) (uid tid : Nat) (content : String),
      (stepSt s (.create_comment uid tid content)).cache = s.cache) ∧
    (∀ (s : St) (uid tid cid : Nat) (content : String),
      (stepSt s (.update_comment uid tid cid content)).cache = s.cache) ∧
    (∀ (s : St) (uid tid cid : Nat) (vote : String),
      (stepSt s (.vote_on_comment uid tid cid vote)).cache = s.cache) ∧
    (∀ (s : St) (uid tid cid : Nat),
      cacheFind (stepSt s (.remove_vote uid tid cid)).cache adminStatsKey
        = cacheFind s.cache adminStatsKey) := by
  refine ⟨?_, ?_, ?_, ?_, ?_, ?_, ?_, ?_, ?_, ?_, ?_, ?_, ?_, ?_, ?_, ?_, ?_, ?_, ?_,
    ?_, ?_, ?_, ?_, ?_, ?_, ?_⟩
  · intro s cat stf skip limit hmiss
    show cacheFind (get_tools s cat stf skip limit).2.cache _ = _
    unfold get_tools
    dsimp only
    rw [hmiss]
    show cacheFind (cacheSet s.cache (toolsListKey cat stf skip limit) _ 300) _ = _
    rw [cacheFind_cacheSet, if_pos rfl]
  · intro s cat stf skip limit v hhit
    show (get_tools s cat stf skip limit).2 = s
    unfold get_tools
    dsimp only
    rw [hhit]
  · intro s tid st hmiss hpay
    show cacheFind (get_rating_stats s tid).2.cache _ = _
    unfold get_rating_stats
    rw [hmiss]
    dsimp only
    rw [hpay]
    show cacheFind (cacheSet s.cache (ratingStatsKey tid) _ 300) _ = _
    rw [cacheFind_cacheSet, if_pos rfl]
  · intro s uid u hu hrole hmiss
    have hgate : (u.role == Role.moderator || u.role == Role.admin) = true := by
      rcases hrole with h | h <;> rw [h] <;> decide
    show cacheFind (get_admin_stats s uid).2.cache _ = _
    unfold get_admin_stats
    rw [hu]
    dsimp only
    rw [hgate, hmiss]
    show cacheFind (cacheSet s.cache adminStatsKey _ 300) _ = _
    rw [cacheFind_cacheSet, if_pos rfl]
  · intro s uid tid r u t hu ht h1 h5
    have hcache : (rate_tool s uid tid r).2.cache
        = clearPat (cacheDelete s.cache (ratingStatsKey tid)) "tools:" := by
      unfold rate_tool
      rw [if_neg (by omega)]
      rw [hu]
      dsimp only
      rw [ht]
      dsimp only
      split <;> rfl
    refine ⟨?_, ?_, ?_⟩
    · show cacheGet (rate_tool s uid tid r).2.cache _ = none
      rw [hcache, cacheGet_clearPat, if_neg (by rw [tools_pref_rsk]; exact fun hc => by cases hc),
        cacheGet_cacheDelete, if_pos rfl]
    · intro k hk
      show cacheGet (rate_tool s uid tid r).2.cache k = none
      rw [hcache, cacheGet_clearPat, if_pos hk]
    · show cacheFind (rate_tool s uid tid r).2.cache adminStatsKey = _
      rw [hcache, cacheFind_clearPat, if_neg (by rw [tools_pref_admin]; exact fun hc => by cases hc),
        cacheFind_cacheDelete, if_neg (Ne.symm (rsk_ne_adminStatsKey tid))]
  · intro s uid tid ap rs u t hu hrole ht
    have hgate : (u.role == Role.moderator || u.role == Role.admin) = true := by
      rcases hrole with h | h <;> rw [h] <;> decide
    have hcache : (approve_tool s uid tid ap rs).2.cache = clearPat s.cache "tools:" := by
      unfold approve_tool
      rw [hu]
      dsimp only
      rw [hgate, ht]
      rfl
    refine ⟨?_, ?_⟩
    · intro k hk
      show cacheGet (approve_tool s uid tid ap rs).2.cache k = none
      rw [hcache, cacheGet_clearPat, if_pos hk]
    · show cacheFind (approve_tool s uid tid ap rs).2.cache adminStatsKey = _
      rw [hcache, cacheFind_clearPat, if_neg (by rw [tools_pref_admin]; exact fun hc => by cases hc)]
  · intro s uid nm ds ct ur u hu
    have hcache : (create_tool s uid nm ds ct ur).2.cache = clearPat s.cache "tools:" := by
      unfold create_tool
      rw [hu]
      rfl
    refine ⟨?_, ?_⟩
    · intro k hk
      show cacheGet (create_tool s uid nm ds ct ur).2.cache k = none
      rw [hcache, cacheGet_clearPat, if_pos hk]
    · show cacheFind (create_tool s uid nm ds ct ur).2.cache adminStatsKey = _
      rw [hcache, cacheFind_clearPat, if_neg (by rw [tools_pref_admin]; exact fun hc => by cases hc)]
  · intro s uid tid r
    show (update_user_role s uid tid r).2.cache = s.cache
    unfold update_user_role
    split
    · rfl
    · split
      · rfl
      · split
        · rfl
        · split <;> rfl
  · intro s uid chat ok
    show (setup_telegram s uid chat ok).2.cache = s.cache
    unfold setup_telegram
    split
    · rfl
    · split <;> rfl
  · intro s uid
    show (disable_2fa s uid).2.cache = s.cache
    unfold disable_2fa
    split <;> rfl
  · intro s uid a b
    show (change_password s uid a b).2.cache = s.cache
    unfold change_password
    split
    · rfl
    · split
      · rfl
      · split <;> rfl
  · intro s uid tid cid u c hu hc howner
    have hperm : (c.user_id == u.id) = true := by simpa using howner
    have hcache : (delete_comment s uid tid cid).2.cache
        = clearPat s.cache (commentsPat tid) := by
      unfold delete_comment
      rw [hu]
      dsimp only
      rw [hc]
      dsimp only
      rw [hperm]
      rfl
    refine ⟨?_, ?_⟩
    · intro k hk
      show cacheGet (delete_comment s uid tid cid).2.cache k = none
      rw [hcache, cacheGet_clearPat, if_pos hk]
    · show cacheFind (delete_comment s uid tid cid).2.cache adminStatsKey = _
      rw [hcache, cacheFind_clearPat,
        if_neg (by rw [comments_pref_admin]; exact fun hcon => by cases hcon)]
  · intro s tid v hhit
    show (get_rating_stats s tid).2 = s
    unfold get_rating_stats
    rw [hhit]
  · intro s uid u v hu hrole hhit
    have hgate : (u.role == Role.moderator || u.role == Role.admin) = true := by
      rcases hrole with h | h <;> rw [h] <;> decide
    show (get_admin_stats s uid).2 = s
    unfold get_admin_stats
    rw [hu]
    dsimp only
    rw [hgate, hhit]
    rfl
  · intro s tid skip limit hmiss
    show cacheFind (get_tool_comments s tid skip limit).2.cache _ = _
    unfold get_tool_comments
    dsimp only
    rw [hmiss]
    show cacheFind (cacheSet s.cache (commentsKey tid skip limit) _ 300) _ = _
    rw [cacheFind_cacheSet, if_pos rfl]
  · intro s tid skip limit v hhit
    show (get_tool_comments s tid skip limit).2 = s
    unfold get_tool_comments
    dsimp only
    rw [hhit]
  · intro s uid tid nm ds ct ur u t hu ht hown
    have hcache : (update_tool s uid tid nm ds ct ur).2.cache
        = clearPat s.cache "tools:" := by
      unfold update_tool
      rw [hu]
      dsimp only
      rw [ht]
      dsimp only
      rw [hown]
      rfl
    refine ⟨?_, ?_⟩
    · intro k hk
      show cacheGet (update_tool s uid tid nm ds ct ur).2.cache k = none
      rw [hcache, cacheGet_clearPat, if_pos hk]
    · show cacheFind (update_tool s uid tid nm ds ct ur).2.cache adminStatsKey = _
      rw [hcache, cacheFind_clearPat,
        if_neg (by rw [tools_pref_admin]; exact fun hc => by cases hc)]
  · intro s uid tid u t hu ht hown
    have hcache : (delete_tool s uid tid).2.cache = clearPat s.cache "tools:" := by
      unfold delete_tool
      rw [hu]
      dsimp only
      rw [ht]
      dsimp only
      rw [hown]
      rfl
    refine ⟨?_, ?_⟩
    · intro k hk
      show cacheGet (delete_tool s uid tid).2.cache k = none
      rw [hcache, cacheGet_clearPat, if_pos hk]
    · show cacheFind (delete_tool s uid tid).2.cache adminStatsKey = _
      rw [hcache, cacheFind_clearPat,
        if_neg (by rw [tools_pref_admin]; exact fun hc => by cases hc)]
  · intro s uid tid u rr hu hr
    have hcache : (delete_rating s uid tid).2.cache
        = clearPat (cacheDelete s.cache (ratingStatsKey tid)) "tools:" := by
      unfold delete_rating
      rw [hu]
      dsimp only
      rw [hr]
      rfl
    refine ⟨?_, ?_, ?_⟩
    · show cacheGet (delete_rating s uid tid).2.cache _ = none
      rw [hcache, cacheGet_clearPat, if_neg (by rw [tools_pref_rsk]; exact fun hc => by cases hc),
        cacheGet_cacheDelete, if_pos rfl]
    · intro k hk
      show cacheGet (delete_rating s uid tid).2.cache k = none
      rw [hcache, cacheGet_clearPat, if_pos hk]
    · show cacheFind (delete_rating s uid tid).2.cache adminStatsKey = _
      rw [hcache, cacheFind_clearPat, if_neg (by rw [tools_pref_admin]; exact fun hc => by cases hc),
        cacheFind_cacheDelete, if_neg (Ne.symm (rsk_ne_adminStatsKey tid))]
  · intro s a b c
    show (register s a b c).2.cache = s.cache
    unfold register
    split
    · rfl
    · split <;> rfl
  · intro s a pw gen ok
    show cacheFind (login s a pw gen ok).2.cache adminStatsKey = cacheFind s.cache adminStatsKey
    unfold login
    split
    · rfl
    · rename_i u heq
      split
      · rfl
      · split
        · cases ok
          all_goals
            show cacheFind (cacheSet s.cache (twoFaKey u.id) (CacheVal.str gen) 300)
              adminStatsKey = cacheFind s.cache adminStatsKey
          all_goals rw [cacheFind_cacheSet, if_neg (admin_ne_twoFaKey u.id)]
        · rfl
  · intro s uid code
    show cacheFind (verify_2fa s uid code).2.cache adminStatsKey = cacheFind s.cache adminStatsKey
    unfold verify_2fa
    split
    · rfl
    · rename_i u heq
      split
      · rfl
      · split
        · rfl
        · split
          · rfl
          · show cacheFind (cacheDelete s.cache (twoFaKey u.id)) adminStatsKey
              = cacheFind s.cache adminStatsKey
            rw [cacheFind_cacheDelete, if_neg (admin_ne_twoFaKey u.id)]
  · intro s uid tid content
    show (create_comment s uid tid [("content", content)]).2.cache = s.cache
    unfold create_comment
    split
    · rfl
    · split
      · rfl
      · rfl
  · intro s uid tid cid content
    show (update_comment s uid tid cid [("content", content)]).2.cache = s.cache
    unfold update_comment
    split
    · rfl
    · split
      · rfl
      · split <;> rfl
  · intro s uid tid cid vote
    show (vote_on_comment s uid tid cid [("vote", vote)]).2.cache = s.cache
    unfold vote_on_comment
    split
    · rfl
    · split <;> rfl
  · intro s uid tid cid
    show cacheFind (remove_vote s uid tid cid).2.cache adminStatsKey
      = cacheFind s.cache adminStatsKey
    unfold remove_vote
    dsimp only
    split
    · rfl
    · split
      · rfl
      · split
        all_goals
          show cacheFind (clearPat s.cache (commentsPat tid)) adminStatsKey
            = cacheFind s.cache adminStatsKey
        all_goals
          rw [cacheFind_clearPat,
            if_neg (by rw [comments_pref_admin]; exact fun hc => by cases hc)]

/-- C6 amended witness: concrete instances of the read-through population,
the rating-key invalidation, and the untouched admin overview entry under
a role change. -/
theorem C6_witness :
    cacheFind (stepSt s0 (.get_tools none none 0 100)).cache (toolsListKey none none 0 100)
      = some ⟨toolsListKey none none 0 100, .toolsList (toolsQuery s0 none none 0 100), 300⟩ ∧
    (cacheGet (stepSt s0 (.rate_tool 1 1 5)).cache (ratingStatsKey 1) = none ∧
      (∀ k, strHasPref "tools:" k = true →
        cacheGet (stepSt s0 (.rate_tool 1 1 5)).cache k = none) ∧
      cacheFind (stepSt s0 (.rate_tool 1 1 5)).cache adminStatsKey
        = cacheFind s0.cache adminStatsKey) ∧
    (stepSt s0 (.update_user_role 1 2 .moderator)).cache = s0.cache :=
  ⟨C6_amended.1 s0 none none 0 100 rfl,
   C6_amended.2.2.2.2.1 s0 1 1 5 uAdmin tSample rfl rfl (by decide) (by decide),
   C6_amended.2.2.2.2.2.2.2.1 s0 1 2 .moderator⟩

/-- C8 counterexample: a successful password change on the sample state
returns the success message yet appends no audit record, contradicting the
claim that every successful mutating action appends exactly one. -/
theorem C8_counterexample :
    (run s0 (.change_password 1 "pw1" "newpass")).1
      = .ok (.msg "Password changed successfully") ∧
    (stepSt s0 (.change_password 1 "pw1" "newpass")).audit = s0.audit := by
  exact ⟨rfl, rfl⟩

/-- C8 amended: each successful mutating action among registration, full
login, 2FA verification, 2FA setup and disable, tool create, update,
delete, approval, role change, rating create, update, delete, and comment
delete appends exactly one audit record carrying the acting user, the
action name, the entity type and id, and the logical timestamp; but
password changes, comment votes and vote removals append nothing on
success, comment creation and edit never succeed (their handlers crash on
the schema field mismatch) and append nothing, and the pending-2FA login
path and every read endpoint append nothing. -/
theorem C8_amended :
    (∀ (s : St) (a b c : String),
      s.users.find? (fun u => u.username == a) = none →
      s.users.find? (fun u => u.email == b) = none →
      (stepSt s (.register a b c)).audit
        = s.audit ++ [⟨s.next_user_id, "register", "user", s.next_user_id, s.audit.length⟩]) ∧
    (∀ (s : St) (a pw gen : String) (ok : Bool) (u : UserRec),
      s.users.find? (fun x => x.username == a) = some u →
      verifyPassword pw u.hashed_password = true →
      (u.is_2fa_enabled && truthyOptStr u.telegram_id) = false →
      (stepSt s (.login a pw gen ok)).audit
        = s.audit ++ [⟨u.id, "login", "user", u.id, s.audit.length⟩]) ∧
    (∀ (s : St) (a pw gen : String) (ok : Bool) (u : UserRec),
      s.users.find? (fun x => x.username == a) = some u →
      verifyPassword pw u.hashed_password = true →
      (u.is_2fa_enabled && truthyOptStr u.telegram_id) = true →
      (stepSt s (.login a pw gen ok)).audit = s.audit) ∧
    (∀ (s : St) (uid : Nat) (code : String) (u : UserRec) (v : CacheVal),
      findUser s uid = some u →
      cacheGet s.cache (twoFaKey u.id) = some v →
      v.falsy = false → v.eqStr code = true →
      (stepSt s (.verify_2fa uid code)).audit
        = s.audit ++ [⟨u.id, "2fa_verified", "user", u.id, s.audit.length⟩]) ∧
    (∀ (s : St) (uid : Nat) (chat : String) (ok : Bool) (u : UserRec),
      findUser s uid = some u → (ok && !chat.isEmpty) = true →
      (stepSt s (.setup_telegram uid chat ok)).audit
        = s.audit ++ [⟨u.id, "setup_2fa", "user", u.id, s.audit.length⟩]) ∧
    (∀ (s : St) (uid : Nat) (u : UserRec),
      findUser s uid = some u →
      (stepSt s (.disable_2fa uid)).audit
        = s.audit ++ [⟨u.id, "disable_2fa", "user", u.id, s.audit.length⟩]) ∧
    (∀ (s : St) (uid : Nat) (a b : String),
      (stepSt s (.change_password uid a b)).audit = s.audit) ∧
    (∀ (s : St) (uid : Nat) (nm ds : String) (ct : ToolCategory) (ur : Option String)
      (u : UserRec),
      findUser s uid = some u →
      (stepSt s (.create_tool uid nm ds ct ur)).audit
        = s.audit ++ [⟨u.id, "create", "tool", s.next_tool_id, s.audit.length⟩]) ∧
    (∀ (s : St) (uid tid : Nat) (nm ds : Option String) (ct : Option ToolCategory)
      (ur : Option (Option String)) (u : UserRec) (t : ToolRec),
      findUser s uid = some u → findTool s tid = some t →
      (t.created_by == some u.id) = true →
      (stepSt s (.update_tool uid tid nm ds ct ur)).audit
        = s.audit ++ [⟨u.id, "update", "tool", t.id, s.audit.length⟩]) ∧
    (∀ (s : St) (uid tid : Nat) (u : UserRec) (t : ToolRec),
      findUser s uid = some u → findTool s tid = some t →
      (t.created_by == some u.id) = true →
      (stepSt s (.delete_tool uid tid)).audit
        = s.audit ++ [⟨u.id, "delete", "tool", t.id, s.audit.length⟩]) ∧
    (∀ (s : St) (uid tid : Nat) (ap : Bool) (rs : Option String) (u : UserRec) (t : ToolRec),
      findUser s uid = some u → (u.role = .moderator ∨ u.role = .admin) →
      findTool s tid = some t →
      (stepSt s (.approve_tool uid tid ap rs)).audit
        = s.audit ++ [⟨u.id, (if ap then "approve" else "reject"), "tool", t.id,
            s.audit.length⟩]) ∧
    (∀ (s : St) (uid target_id : Nat) (r : Role) (cu tg : UserRec),
      findUser s uid = some cu → cu.role = .admin →
      s.users.find? (fun x => x.id == target_id) = some tg →
      (tg.id == cu.id) = false →
      (stepSt s (.update_user_role uid target_id r)).audit
        = s.audit ++ [⟨cu.id, "change_role", "user", tg.id, s.audit.length⟩]) ∧
    (∀ (s : St) (uid tid : Nat) (r : Int) (u : UserRec) (t : ToolRec) (ex : RatingRec),
      findUser s uid = some u → findTool s tid = some t → 1 ≤ r → r ≤ 5 →
      s.ratings.find? (fun x => x.tool_id == tid && x.user_id == u.id) = some ex →
      (stepSt s (.rate_tool uid tid r)).audit
        = s.audit ++ [⟨u.id, "update_rating", "tool_rating", ex.id, s.audit.length⟩]) ∧
    (∀ (s : St) (uid tid : Nat) (r : Int) (u : UserRec) (t : ToolRec),
      findUser s uid = some u → findTool s tid = some t → 1 ≤ r → r ≤ 5 →
      s.ratings.find? (fun x => x.tool_id == tid && x.user_id == u.id) = none →
      (stepSt s (.rate_tool uid tid r)).audit
        = s.audit ++ [⟨u.id, "create_rating", "tool_rating", s.next_rating_id,
            s.audit.length⟩]) ∧
    (∀ (s : St) (uid tid : Nat) (u : UserRec) (rr : RatingRec),
      findUser s uid = some u →
      s.ratings.find? (fun x => x.tool_id == tid && x.user_id == u.id) = some rr →
      (stepSt s (.delete_rating uid tid)).audit
        = s.audit ++ [⟨u.id, "delete_rating", "tool_rating", rr.id, s.audit.length⟩]) ∧
    (∀ (s : St) (uid tid cid : Nat) (u : UserRec) (c : CommentRec),
      findUser s uid = some u →
      s.comments.find? (fun x => x.id == cid && x.tool_id == tid) = some c →
      c.user_id = u.id →
      (stepSt s (.delete_comment uid tid cid)).audit
        = s.audit ++ [⟨u.id, "delete_comment", "tool_comment", c.id, s.audit.length⟩]) ∧
    (∀ (s : St) (uid tid : Nat) (content : String),
      (stepSt s (.create_comment uid tid content)).audit = s.audit) ∧
    (∀ (s : St) (uid tid cid : Nat) (content : String),
      (stepSt s (.update_comment uid tid cid content)).audit = s.audit) ∧
    (∀ (s : St) (uid tid cid : Nat) (vote : String),
      (stepSt s (.vote_on_comment uid tid cid vote)).audit = s.audit) ∧
    (∀ (s : St) (uid tid cid : Nat),
      (stepSt s (.remove_vote uid tid cid)).audit = s.audit) ∧
    (∀ (s : St) (cat : Option ToolCategory) (stf : Option ToolStatus) (skip limit : Nat),
      (stepSt s (.get_tools cat stf skip limit)).audit = s.audit) ∧
    (∀ (s : St), (stepSt s .get_tools_stats).audit = s.audit) ∧
    (∀ (s : St) (tid : Nat), (stepSt s (.get_tool tid)).audit = s.audit) ∧
    (∀ (s : St) (uid : Nat), (stepSt s (.get_admin_stats uid)).audit = s.audit) ∧
    (∀ (s : St) (tid : Nat), (stepSt s (.get_rating_stats tid)).audit = s.audit) ∧
    (∀ (s : St) (uid tid : Nat), (stepSt s (.get_my_rating uid tid)).audit = s.audit) ∧
    (∀ (s : St) (tid skip limit : Nat),
      (stepSt s (.get_tool_comments tid skip limit)).audit = s.audit) := by
  refine ⟨?_, ?_, ?_, ?_, ?_, ?_, ?_, ?_, ?_, ?_, ?_, ?_, ?_, ?_, ?_, ?_, ?_, ?_, ?_,
    ?_, ?_, ?_, ?_, ?_, ?_, ?_, ?_⟩
  · intro s a b c h1 h2
    show (register s a b c).2.audit = _
    unfold register
    rw [h1, h2]
    rfl
  · intro s a pw gen ok u hfind hpw h2fa
    show (login s a pw gen ok).2.audit = _
    unfold login
    rw [hfind]
    dsimp only
    rw [hpw, h2fa]
    rfl
  · intro s a pw gen ok u hfind hpw h2fa
    show (login s a pw gen ok).2.audit = s.audit
    unfold login
    rw [hfind]
    dsimp only
    rw [hpw, h2fa]
    cases ok <;> rfl
  · intro s uid code u v hu hget hfalsy heq
    show (verify_2fa s uid code).2.audit = _
    unfold verify_2fa
    rw [hu]
    dsimp only
    rw [hget]
    dsimp only
    rw [hfalsy, heq]
    rfl
  · intro s uid chat ok u hu hcond
    show (setup_telegram s uid chat ok).2.audit = _
    unfold setup_telegram
    rw [hu]
    dsimp only
    rw [hcond]
    rfl
  · intro s uid u hu
    show (disable_2fa s uid).2.audit = _
    unfold disable_2fa
    rw [hu]
    rfl
  · intro s uid a b
    show (change_password s uid a b).2.audit = s.audit
    unfold change_password
    split
    · rfl
    · split
      · rfl
      · split <;> rfl
  · intro s uid nm ds ct ur u hu
    show (create_tool s uid nm ds ct ur).2.audit = _
    unfold create_tool
    rw [hu]
    rfl
  · intro s uid tid nm ds ct ur u t hu ht hown
    show (update_tool s uid tid nm ds ct ur).2.audit = _
    unfold update_tool
    rw [hu]
    dsimp only
    rw [ht]
    dsimp only
    rw [hown]
    rfl
  · intro s uid tid u t hu ht hown
    show (delete_tool s uid tid).2.audit = _
    unfold delete_tool
    rw [hu]
    dsimp only
    rw [ht]
    dsimp only
    rw [hown]
    rfl
  · intro s uid tid ap rs u t hu hrole ht
    have hgate : (u.role == Role.moderator || u.role == Role.admin) = true := by
      rcases hrole with h | h <;> rw [h] <;> decide
    show (approve_tool s uid tid ap rs).2.audit = _
    unfold approve_tool
    rw [hu]
    dsimp only
    rw [hgate, ht]
    cases ap <;> rfl
  · intro s uid target_id r cu tg hu hrole htg hne
    show (update_user_role s uid target_id r).2.audit = _
    unfold update_user_role
    rw [hu]
    dsimp only
    rw [hrole, htg]
    dsimp only
    rw [hne]
    rfl
  · intro s uid tid r u t ex hu ht h1 h5 hex
    show (rate_tool s uid tid r).2.audit = _
    unfold rate_tool
    rw [if_neg (by omega)]
    rw [hu]
    dsimp only
    rw [ht]
    dsimp only
    rw [hex]
    rfl
  · intro s uid tid r u t hu ht h1 h5 hex
    show (rate_tool s uid tid r).2.audit = _
    unfold rate_tool
    rw [if_neg (by omega)]
    rw [hu]
    dsimp only
    rw [ht]
    dsimp only
    rw [hex]
    rfl
  · intro s uid tid u rr hu hr
    show (delete_rating s uid tid).2.audit = _
    unfold delete_rating
    rw [hu]
    dsimp only
    rw [hr]
    rfl
  · intro s uid tid cid u c hu hc howner
    have hperm : (c.user_id == u.id) = true := by simpa using howner
    show (delete_comment s uid tid cid).2.audit = _
    unfold delete_comment
    rw [hu]
    dsimp only
    rw [hc]
    dsimp only
    rw [hperm]
    rfl
  · intro s uid tid content
    show (create_comment s uid tid [("content", content)]).2.audit = s.audit
    unfold create_comment
    split
    · rfl
    · split
      · rfl
      · rfl
  · intro s uid tid cid content
    show (update_comment s uid tid cid [("content", content)]).2.audit = s.audit
    unfold update_comment
    split
    · rfl
    · split
      · rfl
      · split <;> rfl
  · intro s uid tid cid vote
    show (vote_on_comment s uid tid cid [("vote", vote)]).2.audit = s.audit
    unfold vote_on_comment
    split
    · rfl
    · split <;> rfl
  · intro s uid tid cid
    show (remove_vote s uid tid cid).2.audit = s.audit
    unfold remove_vote
    dsimp only
    split
    · rfl
    · split
      · rfl
      · split <;> rfl
  · intro s cat stf skip limit
    show (get_tools s cat stf skip limit).2.audit = s.audit
    unfold get_tools
    dsimp only
    split <;> rfl
  · intro s
    show (get_tools_stats s).2.audit = s.audit
    unfold get_tools_stats
    split <;> rfl
  · intro s tid
    show (get_tool s tid).2.audit = s.audit
    unfold get_tool
    split <;> rfl
  · intro s uid
    show (get_admin_stats s uid).2.audit = s.audit
    unfold get_admin_stats
    split
    · rfl
    · split
      · rfl
      · split <;> rfl
  · intro s tid
    show (get_rating_stats s tid).2.audit = s.audit
    unfold get_rating_stats
    split
    · rfl
    · split <;> rfl
  · intro s uid tid
    show (get_my_rating s uid tid).2.audit = s.audit
    unfold get_my_rating
    split
    · rfl
    · split <;> rfl
  · intro s tid skip limit
    show (get_tool_comments s tid skip limit).2.audit = s.audit
    unfold get_tool_comments
    dsimp only
    split <;> rfl

/-- C8 amended witness: concrete instances on the sample state of the
create-audit record, the silent password change, and the silent vote
removal. -/
theorem C8_witness :
    (stepSt s0 (.create_tool 2 "T" "yet another described tool" .other none)).audit
      = s0.audit ++ [⟨2, "create", "tool", s0.next_tool_id, s0.audit.length⟩] ∧
    (stepSt s0 (.change_password 1 "pw1" "pw9")).audit = s0.audit ∧
    (stepSt s0 (.remove_vote 1 1 1)).audit = s0.audit :=
  ⟨C8_amended.2.2.2.2.2.2.2.1 s0 2 "T" "yet another described tool" .other none uBob rfl,
   C8_amended.2.2.2.2.2.2.1 s0 1 "pw1" "pw9",
   C8_amended.2.2.2.2.2.2.2.2.2.2.2.2.2.2.2.2.2.2.2.1 s0 1 1 1⟩

end ToolCatalog
